import Mathlib

/-!
Shallow embedding of `src/main_pipeline.py` (a pandas OHLCV ETL pipeline)
and proofs about the claims of its specification.

Modelling conventions:
* a pandas cell is `Option ℚ` (`none` = NaN / missing);
* a DataFrame is a record of optional columns plus a date index
  (`none` column field = the column is absent from `df.columns`);
* floating point is modelled by `ℚ`; the square root used by
  `rolling(..).std()` and `np.sqrt(252)` is an explicit parameter, since no
  claim constrains those (irrational) values;
* external effects (the yfinance provider, the SQLite sink) are explicit
  parameters / logs.
-/

set_option maxRecDepth 20000

namespace OHLC

/-- A calendar date `(year, month, day)`; the DatetimeIndex entries. -/
structure Date where
  year : Int
  month : Int
  day : Int
deriving DecidableEq, Repr

/-- Chronological comparison of dates (lexicographic on year, month, day). -/
def Date.le (a b : Date) : Bool :=
  decide (a.year < b.year) ||
    (decide (a.year = b.year) &&
      (decide (a.month < b.month) ||
        (decide (a.month = b.month) && decide (a.day ≤ b.day))))

/-- A numeric pandas column: its cells (`none` = NaN) and whether its dtype
is numeric (`pd.api.types.is_numeric_dtype`). -/
structure Column where
  vals : List (Option ℚ)
  numeric : Bool
deriving DecidableEq, Repr

/-- A pandas DataFrame as used by the pipeline.  A `none` field means the
column is absent from `df.columns`.  The `ticker` column is the constant
string stamped by `ingest_data`, `yearCol`/`monthCol` are the `year`/`month`
columns added by `store_data`. -/
structure DataFrame where
  dates : List Date := []
  datetimeIndex : Bool := false
  «open» : Option Column := none
  high : Option Column := none
  low : Option Column := none
  close : Option Column := none
  volume : Option Column := none
  ticker : Option String := none
  SMA_10 : Option (List (Option ℚ)) := none
  SMA_50 : Option (List (Option ℚ)) := none
  EMA_10 : Option (List (Option ℚ)) := none
  EMA_50 : Option (List (Option ℚ)) := none
  BB_Middle : Option (List (Option ℚ)) := none
  BB_StdDev : Option (List (Option ℚ)) := none
  BB_Upper : Option (List (Option ℚ)) := none
  BB_Lower : Option (List (Option ℚ)) := none
  RSI : Option (List (Option ℚ)) := none
  Daily_Return : Option (List (Option ℚ)) := none
  Volatility_20D : Option (List (Option ℚ)) := none
  Close_Open_Diff : Option (List (Option ℚ)) := none
  yearCol : Option (List Int) := none
  monthCol : Option (List Int) := none
deriving DecidableEq, Repr

attribute [ext] DataFrame

/-- `df.empty`: the frame has no rows. -/
def DataFrame.empty (df : DataFrame) : Bool := df.dates.isEmpty

/-- `pd.DataFrame()`: the empty frame returned on ingestion failure. -/
def emptyFrame : DataFrame := {}

/-- Well-formedness: every present column has exactly one cell per index
entry (pandas guarantees this alignment). -/
def colWF (n : Nat) : Option Column → Bool
  | none => true
  | some c => c.vals.length == n

def lcolWF (n : Nat) : Option (List (Option ℚ)) → Bool
  | none => true
  | some l => l.length == n

def icolWF (n : Nat) : Option (List Int) → Bool
  | none => true
  | some l => l.length == n

def DataFrame.wf (df : DataFrame) : Prop :=
  colWF df.dates.length df.«open» = true ∧
  colWF df.dates.length df.high = true ∧
  colWF df.dates.length df.low = true ∧
  colWF df.dates.length df.close = true ∧
  colWF df.dates.length df.volume = true ∧
  lcolWF df.dates.length df.SMA_10 = true ∧
  lcolWF df.dates.length df.SMA_50 = true ∧
  lcolWF df.dates.length df.EMA_10 = true ∧
  lcolWF df.dates.length df.EMA_50 = true ∧
  lcolWF df.dates.length df.BB_Middle = true ∧
  lcolWF df.dates.length df.BB_StdDev = true ∧
  lcolWF df.dates.length df.BB_Upper = true ∧
  lcolWF df.dates.length df.BB_Lower = true ∧
  lcolWF df.dates.length df.RSI = true ∧
  lcolWF df.dates.length df.Daily_Return = true ∧
  lcolWF df.dates.length df.Volatility_20D = true ∧
  lcolWF df.dates.length df.Close_Open_Diff = true ∧
  icolWF df.dates.length df.yearCol = true ∧
  icolWF df.dates.length df.monthCol = true

instance (df : DataFrame) : Decidable df.wf := by
  unfold DataFrame.wf; infer_instance

/-! ### Series-level primitives (pandas `Series` methods) -/

/-- `Series.ffill` with the most recent valid value carried in `last`. -/
def ffillFrom : Option ℚ → List (Option ℚ) → List (Option ℚ)
  | _, [] => []
  | _, some v :: xs => some v :: ffillFrom (some v) xs
  | last, none :: xs => last :: ffillFrom last xs

/-- `Series.ffill`: propagate the last valid observation forward. -/
def ffill (xs : List (Option ℚ)) : List (Option ℚ) := ffillFrom none xs

/-- `Series.bfill`: propagate the next valid observation backward. -/
def bfill (xs : List (Option ℚ)) : List (Option ℚ) := (ffill xs.reverse).reverse

/-- `df[col].ffill().bfill()` as applied by `clean_data`. -/
def fillCol (xs : List (Option ℚ)) : List (Option ℚ) := bfill (ffill xs)

/-- The non-null values of a column, sorted ascending (pandas drops NaN
before computing a quantile). -/
def validSorted (xs : List (Option ℚ)) : List ℚ :=
  (xs.filterMap id).insertionSort (· ≤ ·)

/-- `Series.quantile q` with the default linear interpolation: with `v` the
sorted non-null values and `h = (len v - 1) * q`, interpolate between
`v[⌊h⌋]` and `v[⌊h⌋ + 1]`.  NaN when there is no valid value. -/
def quantile (xs : List (Option ℚ)) (q : ℚ) : Option ℚ :=
  let v := validSorted xs
  if v.length = 0 then none
  else
    let h : ℚ := ((v.length - 1 : Nat) : ℚ) * q
    let i : Nat := h.floor.toNat
    let lo := v.getD i 0
    let hi := v.getD (i + 1) lo
    some (lo + (h - (i : ℚ)) * (hi - lo))

/-- The outlier-clipping body of `clean_data` for one column: Tukey fences
from `Q1 = quantile(.25)`, `Q3 = quantile(.75)`; only applied when
`IQR > 0` (a NaN IQR also fails that comparison, as in Python).  The two
`np.where` calls leave NaN cells NaN (NaN comparisons are `False`). -/
def clipSeries (vals : List (Option ℚ)) : List (Option ℚ) :=
  match quantile vals (1/4), quantile vals (3/4) with
  | some Q1, some Q3 =>
    let IQR := Q3 - Q1
    if 0 < IQR then
      let lower_bound := Q1 - 3/2 * IQR
      let upper_bound := Q3 + 3/2 * IQR
      (vals.map (fun x => x.map (fun v => if v < lower_bound then lower_bound else v))).map
        (fun x => x.map (fun v => if upper_bound < v then upper_bound else v))
    else vals
  | _, _ => vals

/-! ### Row selection: the common shape of `dropna` and `sort_index` -/

/-- Select the rows at positions `idxs` of a column. -/
def selCol (idxs : List Nat) : Option Column → Option Column
  | none => none
  | some c => some { c with vals := idxs.map (fun i => c.vals.getD i none) }

def selL (idxs : List Nat) : Option (List (Option ℚ)) → Option (List (Option ℚ))
  | none => none
  | some l => some (idxs.map (fun i => l.getD i none))

def selI (idxs : List Nat) : Option (List Int) → Option (List Int)
  | none => none
  | some l => some (idxs.map (fun i => l.getD i 0))

/-- Keep exactly the rows at positions `idxs` (in that order). -/
def selectRows (df : DataFrame) (idxs : List Nat) : DataFrame where
  dates := idxs.map (fun i => df.dates.getD i ⟨0, 0, 0⟩)
  datetimeIndex := df.datetimeIndex
  «open» := selCol idxs df.«open»
  high := selCol idxs df.high
  low := selCol idxs df.low
  close := selCol idxs df.close
  volume := selCol idxs df.volume
  ticker := df.ticker
  SMA_10 := selL idxs df.SMA_10
  SMA_50 := selL idxs df.SMA_50
  EMA_10 := selL idxs df.EMA_10
  EMA_50 := selL idxs df.EMA_50
  BB_Middle := selL idxs df.BB_Middle
  BB_StdDev := selL idxs df.BB_StdDev
  BB_Upper := selL idxs df.BB_Upper
  BB_Lower := selL idxs df.BB_Lower
  RSI := selL idxs df.RSI
  Daily_Return := selL idxs df.Daily_Return
  Volatility_20D := selL idxs df.Volatility_20D
  Close_Open_Diff := selL idxs df.Close_Open_Diff
  yearCol := selI idxs df.yearCol
  monthCol := selI idxs df.monthCol

/-! ### The four steps of `clean_data` -/

/-- The fill loop of `clean_data` over the five OHLCV columns. -/
def fillColumn : Option Column → Option Column
  | none => none
  | some c => some { c with vals := fillCol c.vals }

def fillStep (df : DataFrame) : DataFrame :=
  { df with «open» := fillColumn df.«open», high := fillColumn df.high,
            low := fillColumn df.low, close := fillColumn df.close,
            volume := fillColumn df.volume }

/-- The cell of an optional column at row `i`. -/
def cell (oc : Option Column) (i : Nat) : Option ℚ :=
  match oc with
  | none => none
  | some c => c.vals.getD i none

/-- Row `i` has a non-null entry in some present OHLCV column.  This is the
row-keeping test of `df.dropna(subset=present OHLCV columns, how='all')`
(with no present column, pandas' non-null count is 0 and the row drops). -/
def rowHasVal (df : DataFrame) (i : Nat) : Bool :=
  (cell df.«open» i).isSome || (cell df.high i).isSome ||
  (cell df.low i).isSome || (cell df.close i).isSome ||
  (cell df.volume i).isSome

/-- `df.dropna(subset=[present OHLCV columns], how='all', inplace=True)`. -/
def dropStep (df : DataFrame) : DataFrame :=
  selectRows df ((List.range df.dates.length).filter (fun i => rowHasVal df i))

/-- The `close` iteration of the outlier loop of `clean_data`, guarded by
`'close' in df.columns and len(df) > 0`. -/
def clipClose (df : DataFrame) : DataFrame :=
  match df.close with
  | some c =>
    if 0 < df.dates.length then
      { df with close := some { c with vals := clipSeries c.vals } }
    else df
  | none => df

/-- The `volume` iteration of the outlier loop of `clean_data`. -/
def clipVolume (df : DataFrame) : DataFrame :=
  match df.volume with
  | some c =>
    if 0 < df.dates.length then
      { df with volume := some { c with vals := clipSeries c.vals } }
    else df
  | none => df

/-- The outlier loop of `clean_data`: `for col in ['close', 'volume']`. -/
def clipStep (df : DataFrame) : DataFrame := clipVolume (clipClose df)

/-- The index-ordering relation used by `sort_index`: compare the dates
sitting at two row positions. -/
def idxLe (dates : List Date) (i j : Nat) : Prop :=
  Date.le (dates.getD i ⟨0, 0, 0⟩) (dates.getD j ⟨0, 0, 0⟩) = true

instance (dates : List Date) : DecidableRel (idxLe dates) := fun i j =>
  decEq (Date.le (dates.getD i ⟨0, 0, 0⟩) (dates.getD j ⟨0, 0, 0⟩)) true

/-- `df.sort_index(inplace=True)`: reorder the rows so the date index is
ascending (modelled with a stable sort of the row positions). -/
def sortStep (df : DataFrame) : DataFrame :=
  selectRows df ((List.range df.dates.length).insertionSort (idxLe df.dates))

/-- `clean_data` (src/main_pipeline.py:106-145): forward/back fill the OHLCV
columns, drop rows that are null in all of them, Tukey-clip `close` and
`volume`, and re-sort by date. -/
def clean_data (df : DataFrame) : DataFrame :=
  if df.empty then df
  else sortStep (clipStep (dropStep (fillStep df)))

/-! ### Pandas primitives used by `transform_data` -/

/-- NaN-propagating cell arithmetic. -/
def oadd : Option ℚ → Option ℚ → Option ℚ
  | some a, some b => some (a + b)
  | _, _ => none

def osub : Option ℚ → Option ℚ → Option ℚ
  | some a, some b => some (a - b)
  | _, _ => none

/-- Cell division.  (In the pipeline the divisor is never a present zero:
`RS = gain / loss.where(loss != 0, np.nan)` masks zeros to NaN first, so the
`ℚ` convention for division by zero is never exercised.) -/
def odiv : Option ℚ → Option ℚ → Option ℚ
  | some a, some b => some (a / b)
  | _, _ => none

/-- `Series.diff()`: first difference, NaN at row 0 and wherever an operand
is NaN. -/
def diff (xs : List (Option ℚ)) : List (Option ℚ) :=
  (List.range xs.length).map fun i =>
    match i with
    | 0 => none
    | j + 1 => osub (xs.getD (j + 1) none) (xs.getD j none)

/-- `Series.pct_change()`: fractional change from the previous row.  (In the
pipeline the input is the cleaned `close`, which has no internal NaN and no
zero denominators, so the NaN-padding subtleties of pandas do not arise.) -/
def pct_change (xs : List (Option ℚ)) : List (Option ℚ) :=
  (List.range xs.length).map fun i =>
    match i with
    | 0 => none
    | j + 1 =>
      match xs.getD (j + 1) none, xs.getD j none with
      | some a, some b => some ((a - b) / b)
      | _, _ => none

/-- The trailing window `rolling(window=w, min_periods=1)` sees at row `i`:
rows `max 0 (i+1-w) .. i`, with NaN cells dropped. -/
def window (w i : Nat) (xs : List (Option ℚ)) : List ℚ :=
  ((xs.take (i + 1)).drop (i + 1 - w)).filterMap id

/-- `Series.rolling(window=w, min_periods=1).mean()`: NaN only when the
window holds no valid value. -/
def rollingMean (w : Nat) (xs : List (Option ℚ)) : List (Option ℚ) :=
  (List.range xs.length).map fun i =>
    let v := window w i xs
    if v.length = 0 then none else some (v.sum / (v.length : ℚ))

/-- `Series.rolling(window=w, min_periods=1).std()`: sample standard
deviation (`ddof = 1`), NaN with fewer than two valid values; `sqrt` is the
abstract square root (see the header). -/
def rollingStd (sqrt : ℚ → ℚ) (w : Nat) (xs : List (Option ℚ)) : List (Option ℚ) :=
  (List.range xs.length).map fun i =>
    let v := window w i xs
    if v.length < 2 then none
    else some (sqrt (((v.map (fun x => (x - v.sum / (v.length : ℚ)) ^ 2)).sum) / ((v.length : ℚ) - 1)))

/-- `Series.ewm(span, adjust=False).mean()`: the recursive exponential mean
`y = (1-α)·y_prev + α·x` seeded by the first valid value (leading NaNs stay
NaN; the cleaned pipeline input has no internal NaN). -/
def ewmFrom (α : ℚ) : Option ℚ → List (Option ℚ) → List (Option ℚ)
  | _, [] => []
  | none, x :: xs => x :: ewmFrom α x xs
  | some m, none :: xs => none :: ewmFrom α (some m) xs
  | some m, some v :: xs =>
    some ((1 - α) * m + α * v) :: ewmFrom α (some ((1 - α) * m + α * v)) xs

def ewmMean (span : ℚ) (xs : List (Option ℚ)) : List (Option ℚ) :=
  ewmFrom (2 / (span + 1)) none xs

/-- `delta.where(delta > 0, 0)`: a NaN comparison is `False`, so NaN cells
also become `0`. -/
def whereGT0 (xs : List (Option ℚ)) : List (Option ℚ) :=
  xs.map fun x =>
    match x with
    | some v => if 0 < v then some v else some 0
    | none => some 0

/-- `-delta.where(delta < 0, 0)`: negated negative deltas, NaN cells to 0. -/
def negWhereLT0 (xs : List (Option ℚ)) : List (Option ℚ) :=
  xs.map fun x =>
    match x with
    | some v => if v < 0 then some (-v) else some 0
    | none => some 0

/-- `loss.where(loss != 0, np.nan)`: zero becomes NaN, NaN stays NaN
(`NaN != 0` is `True`, keeping the NaN). -/
def maskZero (xs : List (Option ℚ)) : List (Option ℚ) :=
  xs.map fun x =>
    match x with
    | some v => if v = 0 then none else some v
    | none => none

/-- `transform_data` (src/main_pipeline.py:147-204): technical indicators,
each gated by a minimum row count; `Daily_Return` always; `Close_Open_Diff`
when the `open` column exists.  `sqrt` abstracts `np.sqrt` (header note). -/
def transform_data (sqrt : ℚ → ℚ) (df : DataFrame) : DataFrame :=
  if df.empty then df
  else
    match df.close with
    | none => df
    | some c =>
      let n := df.dates.length
      let df1 := if 10 ≤ n then { df with SMA_10 := some (rollingMean 10 c.vals) } else df
      let df2 := if 50 ≤ n then { df1 with SMA_50 := some (rollingMean 50 c.vals) } else df1
      let df3 := if 10 ≤ n then { df2 with EMA_10 := some (ewmMean 10 c.vals) } else df2
      let df4 := if 50 ≤ n then { df3 with EMA_50 := some (ewmMean 50 c.vals) } else df3
      let df5 :=
        if 20 ≤ n then
          let mid := rollingMean 20 c.vals
          let sd := rollingStd sqrt 20 c.vals
          { df4 with BB_Middle := some mid, BB_StdDev := some sd,
                     BB_Upper := some (List.zipWith (fun m s => oadd m (s.map (· * 2))) mid sd),
                     BB_Lower := some (List.zipWith (fun m s => osub m (s.map (· * 2))) mid sd) }
        else df4
      let df6 :=
        if 14 ≤ n then
          let delta := diff c.vals
          let gain := rollingMean 14 (whereGT0 delta)
          let loss := rollingMean 14 (negWhereLT0 delta)
          let RS := List.zipWith odiv gain (maskZero loss)
          { df5 with RSI := some (RS.map (Option.map fun r => 100 - 100 / (1 + r))) }
        else df5
      let df7 := { df6 with Daily_Return := some (pct_change c.vals) }
      let df8 :=
        if 20 ≤ n then
          let vol := (rollingStd sqrt 20 (pct_change c.vals)).map (Option.map (· * sqrt 252))
          { df7 with Volatility_20D := some vol }
        else df7
      match df.«open» with
      | some o => { df8 with Close_Open_Diff := some (List.zipWith osub c.vals o.vals) }
      | none => df8

/-! ### `validate_pipeline` -/

/-- `is_numeric_dtype(df[col])` below an `if col in df.columns` guard. -/
def numericIfPresent : Option Column → Bool
  | some c => c.numeric
  | none => true

/-- `(df['close'] > 0).all()`: a NaN comparison is `False`, so any NaN cell
already fails the check. -/
def allPos : Option Column → Bool
  | some c => c.vals.all (fun x => match x with | some v => decide (0 < v) | none => false)
  | none => true

/-- `df[col].isnull().sum() / len(df) < 0.1` below an
`if col in df.columns` guard. -/
def nanFracOK (n : Nat) : Option Column → Bool
  | some c => decide (((c.vals.countP Option.isNone : Nat) : ℚ) / (n : ℚ) < 1/10)
  | none => true

/-- The assert chain of `validate_pipeline` (src/main_pipeline.py:218-243):
the first failing assert raises `AssertionError` with its message, skipping
the remaining checks. -/
def validateChecks (df : DataFrame) : Except String Unit :=
  if df.empty then .error "Validation Error: DataFrame is empty after processing."
  else if df.«open».isNone then .error "Validation Error: Missing essential column."
  else if df.high.isNone then .error "Validation Error: Missing essential column."
  else if df.low.isNone then .error "Validation Error: Missing essential column."
  else if df.close.isNone then .error "Validation Error: Missing essential column."
  else if df.volume.isNone then .error "Validation Error: Missing essential column."
  else if df.ticker.isNone then .error "Validation Error: Missing essential column."
  else if !numericIfPresent df.«open» then .error "Validation Error: not numeric."
  else if !numericIfPresent df.high then .error "Validation Error: not numeric."
  else if !numericIfPresent df.low then .error "Validation Error: not numeric."
  else if !numericIfPresent df.close then .error "Validation Error: not numeric."
  else if !numericIfPresent df.volume then .error "Validation Error: not numeric."
  else if !df.datetimeIndex then
    .error "Validation Error: DataFrame index is not DatetimeIndex."
  else if !allPos df.close then
    .error "Validation Error: Negative or zero close prices found."
  else if !nanFracOK df.dates.length df.close then
    .error "Validation Error: Too many NaN values."
  else if !nanFracOK df.dates.length df.volume then
    .error "Validation Error: Too many NaN values."
  else .ok ()

/-- `validate_pipeline` (src/main_pipeline.py:207-253): a failing assert —
and any other exception raised while checking — is caught and turned into
`False`.  (The embedding is a pure function of the frame: the Python code
only reads `df`, so validation mutates nothing.) -/
def validate_pipeline (df : DataFrame) : Bool :=
  match validateChecks df with
  | .ok _ => true
  | .error _ => false

/-! ### `store_data` and `retrieve_data` -/

/-- `store_data` (src/main_pipeline.py:256-288).  The SQLite sink is
modelled as the log of `(table_name, frame)` appends.  The function is
called for its effects: it mutates the caller's frame in place
(`df['year'] = ...; df['month'] = ...`) before `to_sql`, so the model
returns the frame the caller is left holding together with the new log. -/
def store_data (df : DataFrame) (log : List (String × DataFrame))
    (table_name : String) : DataFrame × List (String × DataFrame) :=
  if df.empty then (df, log)
  else
    let df' := { df with yearCol := some (df.dates.map Date.year),
                         monthCol := some (df.dates.map Date.month) }
    (df', log ++ [(table_name, df')])

/-- A row of the SQLite table read back by `retrieve_data`; only the fields
its WHERE clause can touch are named, the rest is an opaque payload. -/
structure StoredRow where
  date : Date
  ticker : String
  year : Int
  month : Int
  payload : List (Option ℚ) := []
deriving DecidableEq, Repr

/-- One rendered WHERE condition of `retrieve_data`'s query string. -/
inductive Cond where
  | tickerEq (t : String)
  | yearEq (y : Int)
  | monthEq (m : Int)
deriving DecidableEq, Repr

/-- The meaning of one SQL condition at a row. -/
def evalCond (r : StoredRow) : Cond → Bool
  | .tickerEq t => r.ticker == t
  | .yearEq y => r.year == y
  | .monthEq m => r.month == m

/-- `retrieve_data` (src/main_pipeline.py:290-332): builds the `conditions`
list with Python truthiness tests (`if ticker:`, `if year:`, `if month:` —
`None`, the empty string and `0` are all falsy), AND-combines them in a
WHERE clause, and orders by date.  The stored table stands for the SQLite
state; a storage error would return the empty frame (not modelled: the
model's read cannot fail). -/
def retrieve_data (table : List StoredRow) (ticker : Option String := none)
    (year : Option Int := none) (month : Option Int := none) : List StoredRow :=
  let conditions : List Cond :=
    (match ticker with
     | some t => if t ≠ "" then [Cond.tickerEq t] else []
     | none => []) ++
    (match year with
     | some y => if y ≠ 0 then [Cond.yearEq y] else []
     | none => []) ++
    (match month with
     | some m => if m ≠ 0 then [Cond.monthEq m] else []
     | none => [])
  (table.filter (fun r => conditions.all (evalCond r))).insertionSort
    (fun a b => Date.le a.date b.date = true)

/-! ### `ingest_data` -/

/-- The raw tabular response of `yf.download`: rows indexed by date, columns
labelled by (possibly multi-level) header tuples. -/
structure RawFrame where
  dates : List Date
  cols : List (List String × List (Option ℚ))
deriving DecidableEq, Repr

/-- Column-label normalization of `ingest_data`: a MultiIndex collapses to
`get_level_values(0)` (a flat label is its own first level), then lowercase
with spaces replaced by underscores. -/
def normalizeLabel (s : String) : String := (s.toLower).replace " " "_"

def RawFrame.normalize (raw : RawFrame) : List (String × List (Option ℚ)) :=
  raw.cols.map (fun c => (normalizeLabel (c.1.headD ""), c.2))

/-- First column with the given (normalized) name. -/
def findCol (cols : List (String × List (Option ℚ))) (name : String) :
    Option (List (Option ℚ)) :=
  (cols.find? (fun c => c.1 == name)).map (fun c => c.2)

def required_ohlcv_cols : List String := ["open", "high", "low", "close", "volume"]

/-- The body of one successful download attempt in `ingest_data`
(src/main_pipeline.py:44-95): reject an empty response, normalize the
headers, reject if a required column is missing, keep the five OHLCV
columns, stamp the ticker, date-type the index and coerce to numeric
(cells are already rationals in the model, so `pd.to_numeric(...,
errors='coerce')` only sets the numeric dtype). -/
def ingestBody (ticker : String) (raw : RawFrame) : DataFrame :=
  if raw.dates.isEmpty then emptyFrame
  else
    let cols := raw.normalize
    if required_ohlcv_cols.any (fun c => (findCol cols c).isNone) then emptyFrame
    else
      { dates := raw.dates, datetimeIndex := true,
        «open» := (findCol cols "open").map (fun v => ⟨v, true⟩),
        high := (findCol cols "high").map (fun v => ⟨v, true⟩),
        low := (findCol cols "low").map (fun v => ⟨v, true⟩),
        close := (findCol cols "close").map (fun v => ⟨v, true⟩),
        volume := (findCol cols "volume").map (fun v => ⟨v, true⟩),
        ticker := some ticker }

/-- The retry loop of `ingest_data`: `provider attempt` models the
`yf.download` call of that attempt (`Except.error` = a raised exception).
The second component counts the provider calls actually made.  A raised
error on the last attempt — and an exhausted loop (`retry_count = 0`) —
returns the empty frame. -/
def ingestLoop (ticker : String) (provider : Nat → Except String RawFrame) :
    Nat → Nat → DataFrame × Nat
  | _, 0 => (emptyFrame, 0)
  | attempt, fuel + 1 =>
    match provider attempt with
    | .ok raw => (ingestBody ticker raw, 1)
    | .error _ =>
      if fuel = 0 then (emptyFrame, 1)
      else
        let r := ingestLoop ticker provider (attempt + 1) fuel
        (r.1, r.2 + 1)

/-- `ingest_data` (src/main_pipeline.py:18-103) with its external collaborator
made explicit; returns the frame and the number of download attempts made. -/
def ingest_data (ticker : String) (provider : Nat → Except String RawFrame)
    (retry_count : Nat := 3) : DataFrame × Nat :=
  ingestLoop ticker provider 0 retry_count

/-! ### `run_data_pipeline` -/

/-- The per-ticker body of the orchestrator loop
(src/main_pipeline.py:346-379): each stage returning an empty frame — or
a false validation — skips to the next ticker; only a validated frame is
stored.  Every stage of the embedding is a total function, so the
`except Exception` at the ticker boundary has nothing to catch and the loop
never propagates an error.  Returns (ticker succeeded?, new store log). -/
def processTicker (provider : String → Nat → Except String RawFrame)
    (sqrt : ℚ → ℚ) (log : List (String × DataFrame)) (t : String) :
    Bool × List (String × DataFrame) :=
  let raw_df := (ingest_data t (provider t)).1
  if raw_df.empty then (false, log)
  else
    let cleaned_df := clean_data raw_df
    if cleaned_df.empty then (false, log)
    else
      let transformed_df := transform_data sqrt cleaned_df
      if transformed_df.empty then (false, log)
      else
        if !validate_pipeline transformed_df then (false, log)
        else
          let r := store_data transformed_df log "ohlc_processed_data"
          (true, r.2)

/-- The outcome of a run: the success list and the frames appended to the
(freshly deleted) database. -/
structure RunResult where
  successful_tickers : List String
  storeLog : List (String × DataFrame)
deriving Repr

/-- One iteration of the orchestrator's ticker loop: process the ticker
against the store accumulated so far and record success. -/
def runStep (provider : String → Nat → Except String RawFrame) (sqrt : ℚ → ℚ)
    (acc : RunResult) (t : String) : RunResult :=
  let r := processTicker provider sqrt acc.storeLog t
  { successful_tickers :=
      if r.1 then acc.successful_tickers ++ [t] else acc.successful_tickers,
    storeLog := r.2 }

/-- `run_data_pipeline` (src/main_pipeline.py:334-402), per-ticker fold. -/
def run_data_pipeline (provider : String → Nat → Except String RawFrame)
    (sqrt : ℚ → ℚ) (tickers : List String) : RunResult :=
  tickers.foldl (runStep provider sqrt) ⟨[], []⟩

/-! ### Spec-side formulations used by refinement claims -/

/-- The cells of a possibly-absent column. -/
def colVals : Option Column → List (Option ℚ)
  | some c => c.vals
  | none => []

/-- The observation positions inside the 14-observation trailing window at
observation `i` that carry a one-step delta (observation 0 has none). -/
def specWindowIdx (i : Nat) : List Nat :=
  ((List.range (i + 1)).drop (i + 1 - 14)).filter (fun j => j ≠ 0)

/-- The one-step close delta at observation `j ≥ 1`. -/
def specDelta (closes : List ℚ) (j : Nat) : ℚ :=
  closes.getD j 0 - closes.getD (j - 1) 0

/-- The claim's `gain`: the 14-period rolling mean (partial windows allowed)
of the positive one-step close deltas. -/
def specGainAt (closes : List ℚ) (i : Nat) : ℚ :=
  ((specWindowIdx i).map (fun j => max (specDelta closes j) 0)).sum /
    ((specWindowIdx i).length : ℚ)

/-- The claim's `loss`: the 14-period rolling mean of the negated negative
one-step close deltas. -/
def specLossAt (closes : List ℚ) (i : Nat) : ℚ :=
  ((specWindowIdx i).map (fun j => max (-(specDelta closes j)) 0)).sum /
    ((specWindowIdx i).length : ℚ)

/-- The claim's RSI at observation `i`: `100 - 100/(1 + gain/loss)`,
not-a-number where the loss is zero. -/
def specRSI (closes : List ℚ) (i : Nat) : Option ℚ :=
  if specLossAt closes i = 0 then none
  else some (100 - 100 / (1 + specGainAt closes i / specLossAt closes i))

/-! ### Concrete frames, providers and tables used in witnesses -/

def sampleDates : List Date :=
  [⟨2020, 1, 1⟩, ⟨2020, 1, 2⟩, ⟨2020, 1, 3⟩, ⟨2020, 1, 6⟩,
   ⟨2020, 1, 7⟩, ⟨2020, 1, 8⟩, ⟨2020, 1, 9⟩, ⟨2020, 1, 10⟩]

/-- An 8-row frame whose close column carries two large outliers: the Tukey
fence clips them, and recomputed quartiles clip them again on a second
pass. -/
def sampleFrame : DataFrame :=
  { dates := sampleDates, datetimeIndex := true,
    close := some ⟨[some 1, some 1, some 1, some 1, some 1, some 1,
      some 100, some 100], true⟩,
    volume := some ⟨[some 5, some 5, some 5, some 5, some 5, some 5,
      some 5, some 5], true⟩,
    ticker := some "AAPL" }

/-- A strictly increasing `n`-observation close series. -/
def rampCloses (n : Nat) : List ℚ := (List.range n).map (fun i => (i : ℚ) + 1)

/-- An all-columns-present `n`-row frame over `rampCloses`. -/
def rampFrame (n : Nat) : DataFrame :=
  { dates := (List.range n).map (fun i => ⟨2020, 1, (i : Int) + 1⟩),
    datetimeIndex := true,
    «open» := some ⟨(rampCloses n).map some, true⟩,
    high := some ⟨(rampCloses n).map some, true⟩,
    low := some ⟨(rampCloses n).map some, true⟩,
    close := some ⟨(rampCloses n).map some, true⟩,
    volume := some ⟨(rampCloses n).map some, true⟩,
    ticker := some "AAPL" }

/-- A provider whose every attempt succeeds with a zero-row response. -/
def emptyRawProvider : Nat → Except String RawFrame := fun _ => .ok ⟨[], []⟩

/-- A raw response with one row but no `volume` column. -/
def missingColRaw : RawFrame :=
  ⟨[⟨2020, 1, 1⟩],
   [(["Open"], [some 1]), (["High"], [some 2]), (["Low"], [some 1]),
    (["Close"], [some 1])]⟩

/-- A provider that raises twice, then returns `missingColRaw`. -/
def flakyProvider : Nat → Except String RawFrame := fun attempt =>
  if attempt < 2 then .error "ConnectionError" else .ok missingColRaw

/-- A per-ticker provider whose every response is empty. -/
def allEmptyProvider : String → Nat → Except String RawFrame :=
  fun _ _ => .ok ⟨[], []⟩

/-- A small persisted table. -/
def sampleTable : List StoredRow :=
  [⟨⟨2020, 1, 2⟩, "MSFT", 2020, 1, []⟩,
   ⟨⟨2020, 1, 1⟩, "AAPL", 2020, 1, []⟩,
   ⟨⟨2021, 2, 3⟩, "AAPL", 2021, 2, []⟩]

/-! ## Helper lemmas -/

theorem Date.le_iff {a b : Date} : Date.le a b = true ↔
    (a.year < b.year ∨ (a.year = b.year ∧
      (a.month < b.month ∨ (a.month = b.month ∧ a.day ≤ b.day)))) := by
  simp [Date.le]

theorem Date.le_total' (a b : Date) : Date.le a b = true ∨ Date.le b a = true := by
  simp only [Date.le_iff]; omega

theorem Date.le_trans' {a b c : Date} (h1 : Date.le a b = true)
    (h2 : Date.le b c = true) : Date.le a c = true := by
  simp only [Date.le_iff] at *; omega

instance (dates : List Date) : IsTotal Nat (idxLe dates) :=
  ⟨fun i j => Date.le_total' _ _⟩

instance (dates : List Date) : IsTrans Nat (idxLe dates) :=
  ⟨fun _ _ _ => Date.le_trans'⟩

theorem map_getD_range {α : Type} (xs : List α) (d : α) :
    (List.range xs.length).map (fun i => xs.getD i d) = xs := by
  apply List.ext_getElem
  · simp
  · intro i h1 h2
    simp only [List.getElem_map, List.getElem_range]
    exact List.getD_eq_getElem xs d h2

/-! Facts about `ffill`, `bfill`, `fillCol`. -/

/-- Every cell in a column is null. -/
def allNone (xs : List (Option ℚ)) : Prop := ∀ x ∈ xs, x = none

/-- Every cell in a column is valid. -/
def allSome (xs : List (Option ℚ)) : Prop := ∀ x ∈ xs, x.isSome

theorem ffillFrom_allNone {xs} (h : allNone xs) : ffillFrom none xs = xs := by
  induction xs with
  | nil => rfl
  | cons x xs ih =>
    have hx := h x (by simp)
    subst hx
    simp only [ffillFrom]
    rw [ih (fun y hy => h y (by simp [hy]))]

theorem allNone_reverse {xs} (h : allNone xs) : allNone xs.reverse :=
  fun x hx => h x (List.mem_reverse.1 hx)

theorem fillCol_allNone {xs} (h : allNone xs) : fillCol xs = xs := by
  unfold fillCol bfill ffill
  rw [ffillFrom_allNone h, ffillFrom_allNone (allNone_reverse h), List.reverse_reverse]

theorem ffillFrom_some_allSome (v : ℚ) (xs : List (Option ℚ)) :
    allSome (ffillFrom (some v) xs) := by
  induction xs generalizing v with
  | nil => intro x hx; simp [ffillFrom] at hx
  | cons x xs ih =>
    cases x with
    | some w =>
      intro y hy
      simp only [ffillFrom, List.mem_cons] at hy
      rcases hy with rfl | hy
      · rfl
      · exact ih w y hy
    | none =>
      intro y hy
      simp only [ffillFrom, List.mem_cons] at hy
      rcases hy with rfl | hy
      · rfl
      · exact ih v y hy

theorem ffillFrom_allSome {xs} (h : allSome xs) (acc : Option ℚ) :
    ffillFrom acc xs = xs := by
  induction xs generalizing acc with
  | nil => rfl
  | cons x xs ih =>
    cases x with
    | some w => simp only [ffillFrom]; rw [ih (fun y hy => h y (by simp [hy]))]
    | none => exact absurd (h none (by simp)) (by simp)

theorem allSome_reverse {xs} (h : allSome xs) : allSome xs.reverse :=
  fun x hx => h x (List.mem_reverse.1 hx)

theorem fillCol_allSome_id {xs} (h : allSome xs) : fillCol xs = xs := by
  unfold fillCol bfill ffill
  rw [ffillFrom_allSome h, ffillFrom_allSome (allSome_reverse h), List.reverse_reverse]

/-- Decomposition of a not-all-null column at its first valid cell. -/
theorem exists_first_some {xs : List (Option ℚ)} (h : ¬ allNone xs) :
    ∃ as v bs, xs = as ++ some v :: bs ∧ allNone as := by
  induction xs with
  | nil => exact absurd (fun x hx => absurd hx (List.not_mem_nil x)) h
  | cons x xs ih =>
    cases x with
    | some v => exact ⟨[], v, xs, rfl, fun y hy => absurd hy (List.not_mem_nil y)⟩
    | none =>
      have : ¬ allNone xs := by
        intro hall
        exact h (fun y hy => by
          rcases List.mem_cons.1 hy with rfl | hy
          · rfl
          · exact hall y hy)
      obtain ⟨as, v, bs, heq, hall⟩ := ih this
      exact ⟨none :: as, v, bs, by simp [heq], fun y hy => by
        rcases List.mem_cons.1 hy with rfl | hy
        · rfl
        · exact hall y hy⟩

theorem ffillFrom_append_allNone {as} (h : allNone as) (rest : List (Option ℚ)) :
    ffillFrom none (as ++ rest) = as ++ ffillFrom none rest := by
  induction as with
  | nil => rfl
  | cons a as ih =>
    have ha := h a (by simp)
    subst ha
    simp only [List.cons_append, ffillFrom, List.append_eq]
    rw [ih (fun y hy => h y (by simp [hy]))]

theorem ffillFrom_append_allSome {cs : List (Option ℚ)} (h : allSome cs) :
    ∀ (acc : Option ℚ) (ds : List (Option ℚ)),
      ∃ acc', ffillFrom acc (cs ++ ds) = cs ++ ffillFrom acc' ds ∧
        (cs ≠ [] → acc'.isSome) ∧ (cs = [] → acc' = acc) := by
  induction cs with
  | nil => exact fun acc ds => ⟨acc, rfl, by simp, fun _ => rfl⟩
  | cons c cs ih =>
    intro acc ds
    cases c with
    | none => exact absurd (h none (by simp)) (by simp)
    | some w =>
      obtain ⟨acc', heq, hs, hn⟩ := ih (fun y hy => h y (by simp [hy])) (some w) ds
      refine ⟨acc', ?_, fun _ => ?_, by simp⟩
      · simp only [List.cons_append, ffillFrom, List.append_eq]; rw [heq]
      · rcases eq_or_ne cs [] with rfl | hne
        · rw [hn rfl]; rfl
        · exact hs hne

theorem fillCol_allSome {xs} (h : ¬ allNone xs) : allSome (fillCol xs) := by
  obtain ⟨as, v, bs, rfl, hall⟩ := exists_first_some h
  unfold fillCol ffill
  rw [ffillFrom_append_allNone hall]
  simp only [ffillFrom]
  unfold bfill ffill
  rw [List.reverse_append, List.reverse_cons]
  have hys : allSome ((ffillFrom (some v) bs).reverse ++ [some v]) := by
    intro y hy
    rcases List.mem_append.1 hy with hy | hy
    · exact ffillFrom_some_allSome v bs y (List.mem_reverse.1 hy)
    · simp at hy; simp [hy]
  obtain ⟨acc', heq, hsome, -⟩ :=
    ffillFrom_append_allSome hys none as.reverse
  rw [heq]
  obtain ⟨w, rfl⟩ := Option.isSome_iff_exists.1 (hsome (by simp))
  intro y hy
  rw [List.mem_reverse] at hy
  rcases List.mem_append.1 hy with hy | hy
  · exact hys y hy
  · exact ffillFrom_some_allSome w as.reverse y hy

theorem ffillFrom_length (acc : Option ℚ) (xs : List (Option ℚ)) :
    (ffillFrom acc xs).length = xs.length := by
  induction xs generalizing acc with
  | nil => rfl
  | cons x xs ih => cases x <;> simp [ffillFrom, ih]

theorem fillCol_length (xs : List (Option ℚ)) : (fillCol xs).length = xs.length := by
  unfold fillCol bfill ffill
  simp [ffillFrom_length]

/-- `fillCol` is the identity on a column it has already filled. -/
theorem fillCol_fillCol (xs : List (Option ℚ)) : fillCol (fillCol xs) = fillCol xs := by
  by_cases h : allNone xs
  · rw [fillCol_allNone h, fillCol_allNone h]
  · exact fillCol_allSome_id (fillCol_allSome h)

/-! Facts about `clipSeries`. -/

/-- `clipSeries` acts cellwise: it maps some clamping function over the
valid cells and leaves NaN cells NaN. -/
theorem clipSeries_eq_map (vals : List (Option ℚ)) :
    ∃ g : ℚ → ℚ, clipSeries vals = vals.map (Option.map g) := by
  unfold clipSeries
  rcases h1 : quantile vals (1/4) with _ | Q1
  · exact ⟨id, by simp⟩
  rcases h3 : quantile vals (3/4) with _ | Q3
  · exact ⟨id, by simp⟩
  by_cases hIQR : 0 < Q3 - Q1
  · refine ⟨fun v =>
      (if (if v < Q1 - 3/2 * (Q3 - Q1) then Q1 - 3/2 * (Q3 - Q1) else v) >
          Q3 + 3/2 * (Q3 - Q1) then Q3 + 3/2 * (Q3 - Q1)
       else (if v < Q1 - 3/2 * (Q3 - Q1) then Q1 - 3/2 * (Q3 - Q1) else v)), ?_⟩
    simp only [hIQR, if_pos, List.map_map]
    congr 1
    funext x
    cases x <;> simp [Option.map, gt_iff_lt]
  · exact ⟨id, by simp [hIQR]⟩

theorem clipSeries_length (vals : List (Option ℚ)) :
    (clipSeries vals).length = vals.length := by
  obtain ⟨g, hg⟩ := clipSeries_eq_map vals
  simp [hg]

theorem getD_map_optionMap (g : ℚ → ℚ) (vals : List (Option ℚ)) (i : Nat) :
    (vals.map (Option.map g)).getD i none = Option.map g (vals.getD i none) := by
  by_cases h : i < vals.length
  · rw [List.getD_eq_getElem _ _ (by simpa using h), List.getD_eq_getElem _ _ h,
      List.getElem_map]
  · rw [List.getD_eq_default _ _ (by simpa using Nat.le_of_not_lt h),
      List.getD_eq_default _ _ (Nat.le_of_not_lt h)]
    rfl

theorem clipSeries_isSome (vals : List (Option ℚ)) (i : Nat) :
    ((clipSeries vals).getD i none).isSome = ((vals.getD i none).isSome) := by
  obtain ⟨g, hg⟩ := clipSeries_eq_map vals
  rw [hg, getD_map_optionMap]
  cases vals.getD i none <;> rfl

theorem allSome_map_optionMap {vals} (g : ℚ → ℚ) (h : allSome vals) :
    allSome (vals.map (Option.map g)) := by
  intro y hy
  obtain ⟨x, hx, rfl⟩ := List.mem_map.1 hy
  have := h x hx
  cases x <;> simp_all

theorem allNone_map_optionMap {vals} (g : ℚ → ℚ) (h : allNone vals) :
    allNone (vals.map (Option.map g)) := by
  intro y hy
  obtain ⟨x, hx, rfl⟩ := List.mem_map.1 hy
  rw [h x hx]; rfl

/-! Facts about `selectRows`. -/

theorem getD_map_lt {α β : Type} (f : α → β) (l : List α) (d : β) {i : Nat}
    (h : i < l.length) : (l.map f).getD i d = f l[i] := by
  rw [List.getD_eq_getElem _ _ (by simpa using h), List.getElem_map]

theorem colWF_selCol (idxs : List Nat) (oc : Option Column) :
    colWF idxs.length (selCol idxs oc) = true := by
  cases oc <;> simp [colWF, selCol]

theorem lcolWF_selL (idxs : List Nat) (ol : Option (List (Option ℚ))) :
    lcolWF idxs.length (selL idxs ol) = true := by
  cases ol <;> simp [lcolWF, selL]

theorem icolWF_selI (idxs : List Nat) (ol : Option (List Int)) :
    icolWF idxs.length (selI idxs ol) = true := by
  cases ol <;> simp [icolWF, selI]

theorem selectRows_wf (df : DataFrame) (idxs : List Nat) :
    (selectRows df idxs).wf := by
  unfold DataFrame.wf
  simp only [selectRows, List.length_map]
  exact ⟨colWF_selCol _ _, colWF_selCol _ _, colWF_selCol _ _, colWF_selCol _ _,
    colWF_selCol _ _, lcolWF_selL _ _, lcolWF_selL _ _, lcolWF_selL _ _,
    lcolWF_selL _ _, lcolWF_selL _ _, lcolWF_selL _ _, lcolWF_selL _ _,
    lcolWF_selL _ _, lcolWF_selL _ _, lcolWF_selL _ _, lcolWF_selL _ _,
    lcolWF_selL _ _, icolWF_selI _ _, icolWF_selI _ _⟩

theorem selCol_range {n : Nat} (oc : Option Column) (h : colWF n oc = true) :
    selCol (List.range n) oc = oc := by
  cases oc with
  | none => rfl
  | some c =>
    simp only [colWF, beq_iff_eq] at h
    subst h
    simp only [selCol]
    rw [map_getD_range c.vals none]

theorem selL_range {n : Nat} (ol : Option (List (Option ℚ)))
    (h : lcolWF n ol = true) : selL (List.range n) ol = ol := by
  cases ol with
  | none => rfl
  | some l =>
    simp only [lcolWF, beq_iff_eq] at h
    subst h
    simp only [selL]
    rw [map_getD_range l none]

theorem selI_range {n : Nat} (ol : Option (List Int))
    (h : icolWF n ol = true) : selI (List.range n) ol = ol := by
  cases ol with
  | none => rfl
  | some l =>
    simp only [icolWF, beq_iff_eq] at h
    subst h
    simp only [selI]
    rw [map_getD_range l 0]

theorem selectRows_range (df : DataFrame) (h : df.wf) :
    selectRows df (List.range df.dates.length) = df := by
  obtain ⟨h1, h2, h3, h4, h5, h6, h7, h8, h9, h10, h11, h12, h13, h14, h15,
    h16, h17, h18, h19⟩ := h
  ext1 <;> simp only [selectRows]
  · exact map_getD_range df.dates ⟨0, 0, 0⟩
  · exact congrArg (fun oc => selCol _ oc) rfl ▸ (by rw [selCol_range _ h1])
  · rw [selCol_range _ h2]
  · rw [selCol_range _ h3]
  · rw [selCol_range _ h4]
  · rw [selCol_range _ h5]
  · rw [selL_range _ h6]
  · rw [selL_range _ h7]
  · rw [selL_range _ h8]
  · rw [selL_range _ h9]
  · rw [selL_range _ h10]
  · rw [selL_range _ h11]
  · rw [selL_range _ h12]
  · rw [selL_range _ h13]
  · rw [selL_range _ h14]
  · rw [selL_range _ h15]
  · rw [selL_range _ h16]
  · rw [selL_range _ h17]
  · rw [selI_range _ h18]
  · rw [selI_range _ h19]

/-! Column-pattern invariants of cleaned frames. -/

/-- A present column is either entirely valid or entirely null (the state
`ffill().bfill()` leaves every column in). -/
def colGood : Option Column → Prop
  | none => True
  | some c => allSome c.vals ∨ allNone c.vals

def goodCols (df : DataFrame) : Prop :=
  colGood df.«open» ∧ colGood df.high ∧ colGood df.low ∧
  colGood df.close ∧ colGood df.volume

theorem colGood_fillColumn (oc : Option Column) : colGood (fillColumn oc) := by
  cases oc with
  | none => trivial
  | some c =>
    by_cases h : allNone c.vals
    · right
      simp only [fillColumn]
      rw [fillCol_allNone h]
      exact h
    · exact Or.inl (fillCol_allSome h)

theorem goodCols_fillStep (df : DataFrame) : goodCols (fillStep df) :=
  ⟨colGood_fillColumn _, colGood_fillColumn _, colGood_fillColumn _,
   colGood_fillColumn _, colGood_fillColumn _⟩

theorem allSome_sel {xs : List (Option ℚ)} (h : allSome xs) (idxs : List Nat)
    (hidx : ∀ i ∈ idxs, i < xs.length) :
    allSome (idxs.map (fun i => xs.getD i none)) := by
  intro y hy
  obtain ⟨i, hi, rfl⟩ := List.mem_map.1 hy
  rw [List.getD_eq_getElem _ _ (hidx i hi)]
  exact h _ (List.getElem_mem _)

theorem allNone_sel {xs : List (Option ℚ)} (h : allNone xs) (idxs : List Nat) :
    allNone (idxs.map (fun i => xs.getD i none)) := by
  intro y hy
  obtain ⟨i, hi, rfl⟩ := List.mem_map.1 hy
  by_cases hlt : i < xs.length
  · rw [List.getD_eq_getElem _ _ hlt]
    exact h _ (List.getElem_mem _)
  · exact List.getD_eq_default _ _ (Nat.le_of_not_lt hlt)

theorem colGood_selCol {oc : Option Column} (h : colGood oc) {n : Nat}
    (hlen : colWF n oc = true) (idxs : List Nat) (hidx : ∀ i ∈ idxs, i < n) :
    colGood (selCol idxs oc) := by
  cases oc with
  | none => trivial
  | some c =>
    simp only [colWF, beq_iff_eq] at hlen
    rcases h with h | h
    · exact Or.inl (allSome_sel h idxs (by rw [hlen]; exact hidx))
    · exact Or.inr (allNone_sel h idxs)

theorem goodCols_selectRows {df : DataFrame} (h : goodCols df) (hwf : df.wf)
    (idxs : List Nat) (hidx : ∀ i ∈ idxs, i < df.dates.length) :
    goodCols (selectRows df idxs) := by
  obtain ⟨g1, g2, g3, g4, g5⟩ := h
  obtain ⟨h1, h2, h3, h4, h5, -⟩ := hwf
  exact ⟨colGood_selCol g1 h1 idxs hidx, colGood_selCol g2 h2 idxs hidx,
    colGood_selCol g3 h3 idxs hidx, colGood_selCol g4 h4 idxs hidx,
    colGood_selCol g5 h5 idxs hidx⟩

theorem colGood_clip {c : Column} (h : colGood (some c)) :
    colGood (some { c with vals := clipSeries c.vals }) := by
  obtain ⟨g, hg⟩ := clipSeries_eq_map c.vals
  rcases h with h | h
  · exact Or.inl (by rw [hg]; exact allSome_map_optionMap g h)
  · exact Or.inr (by rw [hg]; exact allNone_map_optionMap g h)

/-- `clipClose` only rewrites the `close` field. -/
theorem clipClose_fields (df : DataFrame) :
    (clipClose df).dates = df.dates ∧ (clipClose df).datetimeIndex = df.datetimeIndex ∧
    (clipClose df).«open» = df.«open» ∧ (clipClose df).high = df.high ∧
    (clipClose df).low = df.low ∧ (clipClose df).volume = df.volume ∧
    (clipClose df).ticker = df.ticker := by
  unfold clipClose
  rcases df.close with _ | c
  · exact ⟨rfl, rfl, rfl, rfl, rfl, rfl, rfl⟩
  · dsimp only
    split_ifs <;> exact ⟨rfl, rfl, rfl, rfl, rfl, rfl, rfl⟩

theorem clipVolume_fields (df : DataFrame) :
    (clipVolume df).dates = df.dates ∧ (clipVolume df).datetimeIndex = df.datetimeIndex ∧
    (clipVolume df).«open» = df.«open» ∧ (clipVolume df).high = df.high ∧
    (clipVolume df).low = df.low ∧ (clipVolume df).close = df.close ∧
    (clipVolume df).ticker = df.ticker := by
  unfold clipVolume
  rcases df.volume with _ | c
  · exact ⟨rfl, rfl, rfl, rfl, rfl, rfl, rfl⟩
  · dsimp only
    split_ifs <;> exact ⟨rfl, rfl, rfl, rfl, rfl, rfl, rfl⟩

theorem clipStep_dates (df : DataFrame) : (clipStep df).dates = df.dates := by
  unfold clipStep
  rw [(clipVolume_fields _).1, (clipClose_fields _).1]

theorem clipClose_close (df : DataFrame) :
    (clipClose df).close = df.close ∨
    ∃ c, df.close = some c ∧
      (clipClose df).close = some { c with vals := clipSeries c.vals } := by
  rcases h : df.close with _ | c
  · left; unfold clipClose; rw [h]; exact h
  · by_cases hlen : 0 < df.dates.length
    · right
      refine ⟨c, rfl, ?_⟩
      unfold clipClose; rw [h]
      simp [hlen]
    · left
      unfold clipClose; rw [h]
      simp only [if_neg hlen]
      exact h

theorem clipVolume_volume (df : DataFrame) :
    (clipVolume df).volume = df.volume ∨
    ∃ c, df.volume = some c ∧
      (clipVolume df).volume = some { c with vals := clipSeries c.vals } := by
  rcases h : df.volume with _ | c
  · left; unfold clipVolume; rw [h]; exact h
  · by_cases hlen : 0 < df.dates.length
    · right
      refine ⟨c, rfl, ?_⟩
      unfold clipVolume; rw [h]
      simp [hlen]
    · left
      unfold clipVolume; rw [h]
      simp only [if_neg hlen]
      exact h

theorem colGood_of_eq {a b : Option Column} (h : a = b) (hg : colGood b) :
    colGood a := h ▸ hg

theorem goodCols_clipStep {df : DataFrame} (h : goodCols df) :
    goodCols (clipStep df) := by
  obtain ⟨g1, g2, g3, g4, g5⟩ := h
  have hcc := clipClose_fields df
  have hcv := clipVolume_fields (clipClose df)
  have hclose : colGood (clipClose df).close := by
    rcases clipClose_close df with h | ⟨c, hc, h⟩
    · rw [h]; exact g4
    · rw [h]; exact colGood_clip (hc ▸ g4)
  have hvol : colGood (clipVolume (clipClose df)).volume := by
    rcases clipVolume_volume (clipClose df) with h | ⟨c, hc, h⟩
    · rw [h, hcc.2.2.2.2.2.1]; exact g5
    · rw [h]
      exact colGood_clip (by rw [← hc, hcc.2.2.2.2.2.1]; exact g5)
  refine ⟨?_, ?_, ?_, ?_, ?_⟩
  · rw [show (clipStep df).«open» = df.«open» from by
      unfold clipStep; rw [hcv.2.2.1, hcc.2.2.1]]
    exact g1
  · rw [show (clipStep df).high = df.high from by
      unfold clipStep; rw [hcv.2.2.2.1, hcc.2.2.2.1]]
    exact g2
  · rw [show (clipStep df).low = df.low from by
      unfold clipStep; rw [hcv.2.2.2.2.1, hcc.2.2.2.2.1]]
    exact g3
  · rw [show (clipStep df).close = (clipClose df).close from by
      unfold clipStep; rw [hcv.2.2.2.2.2.1]]
    exact hclose
  · exact hvol

/-- `clipStep` preserves well-formedness. -/
theorem clipClose_wf {df : DataFrame} (h : df.wf) : (clipClose df).wf := by
  unfold clipClose
  rcases hc : df.close with _ | c
  · exact h
  · dsimp only
    split_ifs with hlen
    · obtain ⟨h1, h2, h3, h4, h5, hrest⟩ := h
      refine ⟨h1, h2, h3, ?_, h5, hrest⟩
      simp only [colWF, beq_iff_eq, clipSeries_length]
      rw [hc] at h4
      simpa [colWF] using h4
    · exact h

theorem clipVolume_wf {df : DataFrame} (h : df.wf) : (clipVolume df).wf := by
  unfold clipVolume
  rcases hc : df.volume with _ | c
  · exact h
  · dsimp only
    split_ifs with hlen
    · obtain ⟨h1, h2, h3, h4, h5, hrest⟩ := h
      refine ⟨h1, h2, h3, h4, ?_, hrest⟩
      simp only [colWF, beq_iff_eq, clipSeries_length]
      rw [hc] at h5
      simpa [colWF] using h5
    · exact h

theorem clipStep_wf {df : DataFrame} (h : df.wf) : (clipStep df).wf :=
  clipVolume_wf (clipClose_wf h)

/-! Row-pattern transport. -/

theorem cell_selCol {idxs : List Nat} {i : Nat} (h : i < idxs.length)
    (oc : Option Column) : cell (selCol idxs oc) i = cell oc idxs[i] := by
  cases oc with
  | none => rfl
  | some c =>
    simp only [cell, selCol]
    exact getD_map_lt _ idxs none h

theorem rowHasVal_selectRows {df : DataFrame} {idxs : List Nat} {i : Nat}
    (h : i < idxs.length) :
    rowHasVal (selectRows df idxs) i = rowHasVal df idxs[i] := by
  simp only [rowHasVal, selectRows]
  rw [cell_selCol h, cell_selCol h, cell_selCol h, cell_selCol h, cell_selCol h]

theorem cell_isSome_clip {c : Column} (i : Nat) :
    (cell (some { c with vals := clipSeries c.vals }) i).isSome =
      (cell (some c) i).isSome := by
  simp only [cell]
  exact clipSeries_isSome c.vals i

theorem rowHasVal_clipClose (df : DataFrame) (i : Nat) :
    rowHasVal (clipClose df) i = rowHasVal df i := by
  have hf := clipClose_fields df
  simp only [rowHasVal, hf.2.2.1, hf.2.2.2.1, hf.2.2.2.2.1, hf.2.2.2.2.2.1]
  rcases clipClose_close df with h | ⟨c, hc, h⟩
  · rw [h]
  · rw [h, hc, cell_isSome_clip]

theorem rowHasVal_clipVolume (df : DataFrame) (i : Nat) :
    rowHasVal (clipVolume df) i = rowHasVal df i := by
  have hf := clipVolume_fields df
  simp only [rowHasVal, hf.2.2.1, hf.2.2.2.1, hf.2.2.2.2.1, hf.2.2.2.2.2.1]
  rcases clipVolume_volume df with h | ⟨c, hc, h⟩
  · rw [h]
  · rw [h, hc, cell_isSome_clip]

theorem rowHasVal_clipStep (df : DataFrame) (i : Nat) :
    rowHasVal (clipStep df) i = rowHasVal df i := by
  unfold clipStep
  rw [rowHasVal_clipVolume, rowHasVal_clipClose]

/-- In a frame produced by `dropStep`, every row still has a valid cell. -/
theorem dropStep_rows (df : DataFrame) (i : Nat)
    (h : i < (dropStep df).dates.length) : rowHasVal (dropStep df) i = true := by
  unfold dropStep at h ⊢
  have hlen : i < ((List.range df.dates.length).filter (fun j => rowHasVal df j)).length := by
    simpa [selectRows] using h
  rw [rowHasVal_selectRows hlen]
  have hmem := List.getElem_mem hlen
  exact (List.mem_filter.1 hmem).2

/-! Step identities on already-clean frames. -/

theorem fillColumn_of_colGood {oc : Option Column} (h : colGood oc) :
    fillColumn oc = oc := by
  cases oc with
  | none => rfl
  | some c =>
    simp only [fillColumn]
    rcases h with h | h
    · rw [fillCol_allSome_id h]
    · rw [fillCol_allNone h]

theorem fillStep_eq_self {df : DataFrame} (h : goodCols df) : fillStep df = df := by
  obtain ⟨g1, g2, g3, g4, g5⟩ := h
  unfold fillStep
  rw [fillColumn_of_colGood g1, fillColumn_of_colGood g2, fillColumn_of_colGood g3,
    fillColumn_of_colGood g4, fillColumn_of_colGood g5]

theorem dropStep_eq_self {df : DataFrame} (hwf : df.wf)
    (hrows : ∀ i, i < df.dates.length → rowHasVal df i = true) :
    dropStep df = df := by
  unfold dropStep
  rw [List.filter_eq_self.2 (fun a ha => hrows a (List.mem_range.1 ha))]
  exact selectRows_range df hwf

/-- The index produced by `sortStep` is sorted. -/
theorem sortStep_sorted (df : DataFrame) :
    (sortStep df).dates.Pairwise (fun a b => Date.le a b = true) := by
  unfold sortStep
  simp only [selectRows]
  rw [List.pairwise_map]
  exact List.sorted_insertionSort (idxLe df.dates) (List.range df.dates.length)

theorem sortStep_eq_self {df : DataFrame} (hwf : df.wf)
    (hsorted : df.dates.Pairwise (fun a b => Date.le a b = true)) :
    sortStep df = df := by
  unfold sortStep
  have : (List.range df.dates.length).insertionSort (idxLe df.dates) =
      List.range df.dates.length := by
    apply List.Sorted.insertionSort_eq
    rw [List.Sorted, List.pairwise_iff_getElem]
    intro i j hi hj hij
    simp only [List.getElem_range] at *
    unfold idxLe
    rw [List.getD_eq_getElem _ _ (by simpa using hi),
      List.getD_eq_getElem _ _ (by simpa using hj)]
    exact List.pairwise_iff_getElem.1 hsorted i j (by simpa using hi)
      (by simpa using hj) hij
  rw [this]
  exact selectRows_range df hwf

/-- `clean_data` on a non-empty frame, unfolded. -/
theorem clean_data_of_ne {df : DataFrame} (h : df.empty = false) :
    clean_data df = sortStep (clipStep (dropStep (fillStep df))) := by
  unfold clean_data
  rw [h]
  exact if_neg (by simp)

theorem clipClose_of_no_rows {df : DataFrame} (h : df.dates.length = 0) :
    clipClose df = df := by
  unfold clipClose
  rcases df.close with _ | c
  · rfl
  · simp [h]

theorem clipVolume_of_no_rows {df : DataFrame} (h : df.dates.length = 0) :
    clipVolume df = df := by
  unfold clipVolume
  rcases df.volume with _ | c
  · rfl
  · simp [h]

theorem clipStep_of_no_rows {df : DataFrame} (h : df.dates.length = 0) :
    clipStep df = df := by
  unfold clipStep
  rw [clipClose_of_no_rows h, clipVolume_of_no_rows h]

/-- `fillStep` preserves the index and well-formedness. -/
theorem fillStep_dates (df : DataFrame) : (fillStep df).dates = df.dates := rfl

theorem colWF_fillColumn {n : Nat} {oc : Option Column} (h : colWF n oc = true) :
    colWF n (fillColumn oc) = true := by
  cases oc with
  | none => rfl
  | some c =>
    simp only [colWF, beq_iff_eq] at h
    simp only [fillColumn, colWF, beq_iff_eq]
    rw [fillCol_length]
    exact h

theorem fillStep_wf {df : DataFrame} (h : df.wf) : (fillStep df).wf := by
  obtain ⟨h1, h2, h3, h4, h5, hrest⟩ := h
  exact ⟨colWF_fillColumn h1, colWF_fillColumn h2, colWF_fillColumn h3,
    colWF_fillColumn h4, colWF_fillColumn h5, hrest⟩

/-! ## Claim C1 -/

/-- C1 (amended): on an already-cleaned series the second `clean_data`'s
forward/back fill, all-null-row drop and re-sort change nothing — the second
pass is exactly the outlier-clipping step alone.  (Full idempotence fails:
see the counterexample; the clipping step itself can clip again, because the
quartiles are recomputed on the already-clipped values.) -/
theorem C1_second_clean_is_clipping_only (df : DataFrame) (hwf : df.wf) :
    clean_data (clean_data df) = clipStep (clean_data df) := by
  by_cases hemp : df.empty = true
  · have hlen : df.dates.length = 0 := by
      rw [DataFrame.empty] at hemp
      cases h : df.dates with
      | nil => rfl
      | cons a l => rw [h] at hemp; simp at hemp
    have h1 : clean_data df = df := by simp [clean_data, hemp]
    rw [h1, h1, clipStep_of_no_rows hlen]
  · have hne : df.empty = false := Bool.not_eq_true _ ▸ Bool.of_not_eq_true hemp
    rw [clean_data_of_ne hne]
    have hAwf : (dropStep (fillStep df)).wf := selectRows_wf _ _
    have hBwf : (clipStep (dropStep (fillStep df))).wf := clipStep_wf hAwf
    have hCwf : (sortStep (clipStep (dropStep (fillStep df)))).wf := selectRows_wf _ _
    have hAgood : goodCols (dropStep (fillStep df)) := by
      unfold dropStep
      apply goodCols_selectRows (goodCols_fillStep df) (fillStep_wf hwf)
      intro i hi
      exact List.mem_range.1 (List.mem_filter.1 hi).1
    have hBgood : goodCols (clipStep (dropStep (fillStep df))) := goodCols_clipStep hAgood
    have hCgood : goodCols (sortStep (clipStep (dropStep (fillStep df)))) := by
      unfold sortStep
      apply goodCols_selectRows hBgood hBwf
      intro i hi
      exact List.mem_range.1 ((List.mem_insertionSort _).1 hi)
    have hCrows : ∀ i, i < (sortStep (clipStep (dropStep (fillStep df)))).dates.length →
        rowHasVal (sortStep (clipStep (dropStep (fillStep df)))) i = true := by
      intro i hi
      unfold sortStep at hi ⊢
      have hlenC : i < ((List.range (clipStep (dropStep (fillStep df))).dates.length).insertionSort
          (idxLe (clipStep (dropStep (fillStep df))).dates)).length := by
        simpa [selectRows] using hi
      rw [rowHasVal_selectRows hlenC]
      have hj : ((List.range (clipStep (dropStep (fillStep df))).dates.length).insertionSort
          (idxLe (clipStep (dropStep (fillStep df))).dates))[i] <
          (clipStep (dropStep (fillStep df))).dates.length := by
        apply List.mem_range.1
        rw [← List.mem_insertionSort (r := idxLe (clipStep (dropStep (fillStep df))).dates)]
        exact List.getElem_mem hlenC
      rw [rowHasVal_clipStep]
      apply dropStep_rows
      exact hj.trans_eq (by rw [clipStep_dates])
    have hCsorted := sortStep_sorted (clipStep (dropStep (fillStep df)))
    by_cases hCemp : (sortStep (clipStep (dropStep (fillStep df)))).empty = true
    · have hlenC : (sortStep (clipStep (dropStep (fillStep df)))).dates.length = 0 := by
        rw [DataFrame.empty] at hCemp
        cases h : (sortStep (clipStep (dropStep (fillStep df)))).dates with
        | nil => rfl
        | cons a l => rw [h] at hCemp; simp at hCemp
      have h1 : clean_data (sortStep (clipStep (dropStep (fillStep df)))) =
          sortStep (clipStep (dropStep (fillStep df))) := by simp [clean_data, hCemp]
      rw [h1, clipStep_of_no_rows hlenC]
    · have hne2 : (sortStep (clipStep (dropStep (fillStep df)))).empty = false :=
        Bool.not_eq_true _ ▸ Bool.of_not_eq_true hCemp
      rw [clean_data_of_ne hne2, fillStep_eq_self hCgood, dropStep_eq_self hCwf hCrows,
        sortStep_eq_self (clipStep_wf hCwf) (by rw [clipStep_dates]; exact hCsorted)]

/-- C1 counterexample: `clean_data` is not idempotent.  `clean_data
sampleFrame` is an output of `clean_data`, yet cleaning it again changes the
close column (the first pass clips 100 to 62.875; the recomputed quartiles
then clip 62.875 to 39.671875). -/
theorem C1_counterexample :
    clean_data (clean_data sampleFrame) ≠ clean_data sampleFrame := by
  with_unfolding_all decide

theorem C1_witness :
    sampleFrame.wf ∧
      clean_data (clean_data sampleFrame) = clipStep (clean_data sampleFrame) :=
  ⟨by with_unfolding_all decide,
   C1_second_clean_is_clipping_only sampleFrame (by with_unfolding_all decide)⟩

/-! ## Claim C3 -/

theorem mem_colVals_selCol (oc : Option Column) {idxs : List Nat} {v : ℚ}
    (h : some v ∈ colVals (selCol idxs oc)) : some v ∈ colVals oc := by
  cases oc with
  | none => simpa [colVals, selCol] using h
  | some c =>
    simp only [colVals, selCol] at h ⊢
    obtain ⟨i, -, hi⟩ := List.mem_map.1 h
    by_cases hlt : i < c.vals.length
    · rw [List.getD_eq_getElem _ _ hlt] at hi
      exact hi ▸ List.getElem_mem hlt
    · rw [List.getD_eq_default _ _ (Nat.le_of_not_lt hlt)] at hi
      exact absurd hi (by simp)

/-- Every valid cell of the clipped column lies between the Tukey fences of
the input distribution. -/
theorem clipSeries_bounds {vals : List (Option ℚ)} {Q1 Q3 : ℚ}
    (h1 : quantile vals (1/4) = some Q1) (h3 : quantile vals (3/4) = some Q3)
    (hIQR : 0 < Q3 - Q1) :
    ∀ v : ℚ, some v ∈ clipSeries vals →
      Q1 - 3/2 * (Q3 - Q1) ≤ v ∧ v ≤ Q3 + 3/2 * (Q3 - Q1) := by
  intro v hv
  unfold clipSeries at hv
  rw [h1, h3] at hv
  simp only [if_pos hIQR, List.map_map, List.mem_map] at hv
  obtain ⟨x, -, hx⟩ := hv
  cases x with
  | none => exact absurd hx (by simp [Option.map])
  | some w =>
    simp only [Function.comp, Option.map] at hx
    have hx' : (if Q3 + 3/2 * (Q3 - Q1) <
        (if w < Q1 - 3/2 * (Q3 - Q1) then Q1 - 3/2 * (Q3 - Q1) else w)
        then Q3 + 3/2 * (Q3 - Q1)
        else (if w < Q1 - 3/2 * (Q3 - Q1) then Q1 - 3/2 * (Q3 - Q1) else w)) = v := by
      simpa using hx
    subst hx'
    constructor
    · split_ifs <;> linarith
    · split_ifs <;> linarith

/-- With a zero interquartile range the clipping body is skipped. -/
theorem clipSeries_of_IQR_zero {vals : List (Option ℚ)} {Q1 Q3 : ℚ}
    (h1 : quantile vals (1/4) = some Q1) (h3 : quantile vals (3/4) = some Q3)
    (h0 : Q3 - Q1 = 0) : clipSeries vals = vals := by
  unfold clipSeries
  rw [h1, h3]
  simp [h0]

/-- C3: for every non-empty well-formed series, each valid close/volume cell
of `clean_data df` lies inside the Tukey fences `[Q1 - 1.5·IQR, Q3 + 1.5·IQR]`
computed from that column as it stood at the start of the clipping step
(after fill and row drop) whenever `IQR > 0`; and with `IQR = 0` the
clipping step leaves that column unchanged. -/
theorem C3_outlier_clip_bound (df : DataFrame) (hwf : df.wf)
    (hne : df.empty = false) :
    (∀ c Q1 Q3, (dropStep (fillStep df)).close = some c →
      quantile c.vals (1/4) = some Q1 → quantile c.vals (3/4) = some Q3 →
      ((0 < Q3 - Q1 → ∀ v : ℚ, some v ∈ colVals (clean_data df).close →
          Q1 - 3/2 * (Q3 - Q1) ≤ v ∧ v ≤ Q3 + 3/2 * (Q3 - Q1)) ∧
       (Q3 - Q1 = 0 →
        (clipStep (dropStep (fillStep df))).close = (dropStep (fillStep df)).close))) ∧
    (∀ c Q1 Q3, (dropStep (fillStep df)).volume = some c →
      quantile c.vals (1/4) = some Q1 → quantile c.vals (3/4) = some Q3 →
      ((0 < Q3 - Q1 → ∀ v : ℚ, some v ∈ colVals (clean_data df).volume →
          Q1 - 3/2 * (Q3 - Q1) ≤ v ∧ v ≤ Q3 + 3/2 * (Q3 - Q1)) ∧
       (Q3 - Q1 = 0 →
        (clipStep (dropStep (fillStep df))).volume = (dropStep (fillStep df)).volume))) := by
  rw [clean_data_of_ne hne]
  have hAwf : (dropStep (fillStep df)).wf := selectRows_wf _ _
  constructor
  · intro c Q1 Q3 hc h1 h3
    have hclose : (clipStep (dropStep (fillStep df))).close =
        (clipClose (dropStep (fillStep df))).close := by
      unfold clipStep
      exact (clipVolume_fields _).2.2.2.2.2.1
    by_cases hlen : 0 < (dropStep (fillStep df)).dates.length
    · have hcc : (clipClose (dropStep (fillStep df))).close =
          some { c with vals := clipSeries c.vals } := by
        unfold clipClose
        rw [hc]
        simp [hlen]
      constructor
      · intro hIQR v hv
        unfold sortStep at hv
        simp only [colVals, selectRows] at hv
        have hv2 := mem_colVals_selCol
          ((clipStep (dropStep (fillStep df))).close) (by simpa [colVals] using hv)
        rw [hclose, hcc] at hv2
        simp only [colVals] at hv2
        exact clipSeries_bounds h1 h3 hIQR v hv2
      · intro h0
        rw [hclose, hcc, clipSeries_of_IQR_zero h1 h3 h0, hc]
    · have hlen0 : (dropStep (fillStep df)).dates.length = 0 := by omega
      have hcc : clipClose (dropStep (fillStep df)) = dropStep (fillStep df) :=
        clipClose_of_no_rows hlen0
      have hempty : c.vals = [] := by
        obtain ⟨-, -, -, h4, -⟩ := hAwf
        rw [hc] at h4
        simp only [colWF, beq_iff_eq] at h4
        rw [hlen0] at h4
        exact List.length_eq_zero.1 h4
      constructor
      · intro hIQR v hv
        unfold sortStep at hv
        simp only [colVals, selectRows] at hv
        have hv2 := mem_colVals_selCol
          ((clipStep (dropStep (fillStep df))).close) (by simpa [colVals] using hv)
        rw [hclose, hcc, hc] at hv2
        simp [colVals, hempty] at hv2
      · intro h0
        rw [hclose, hcc]
  · intro c Q1 Q3 hc h1 h3
    have hvol : (clipStep (dropStep (fillStep df))).volume =
        (clipVolume (clipClose (dropStep (fillStep df)))).volume := rfl
    have hBvol : (clipClose (dropStep (fillStep df))).volume =
        (dropStep (fillStep df)).volume := (clipClose_fields _).2.2.2.2.2.1
    have hBlen : (clipClose (dropStep (fillStep df))).dates.length =
        (dropStep (fillStep df)).dates.length := by
      rw [(clipClose_fields _).1]
    by_cases hlen : 0 < (dropStep (fillStep df)).dates.length
    · have hcc : (clipVolume (clipClose (dropStep (fillStep df)))).volume =
          some { c with vals := clipSeries c.vals } := by
        unfold clipVolume
        rw [hBvol, hc]
        simp only [hBlen]
        simp [hlen]
      constructor
      · intro hIQR v hv
        unfold sortStep at hv
        simp only [colVals, selectRows] at hv
        have hv2 := mem_colVals_selCol
          ((clipStep (dropStep (fillStep df))).volume) (by simpa [colVals] using hv)
        rw [hvol, hcc] at hv2
        simp only [colVals] at hv2
        exact clipSeries_bounds h1 h3 hIQR v hv2
      · intro h0
        rw [hvol, hcc, clipSeries_of_IQR_zero h1 h3 h0, hc]
    · have hlen0 : (dropStep (fillStep df)).dates.length = 0 := by omega
      have hcc : clipVolume (clipClose (dropStep (fillStep df))) =
          clipClose (dropStep (fillStep df)) :=
        clipVolume_of_no_rows (by rw [hBlen]; exact hlen0)
      have hempty : c.vals = [] := by
        obtain ⟨-, -, -, -, h5, -⟩ := hAwf
        rw [hc] at h5
        simp only [colWF, beq_iff_eq] at h5
        rw [hlen0] at h5
        exact List.length_eq_zero.1 h5
      constructor
      · intro hIQR v hv
        unfold sortStep at hv
        simp only [colVals, selectRows] at hv
        have hv2 := mem_colVals_selCol
          ((clipStep (dropStep (fillStep df))).volume) (by simpa [colVals] using hv)
        rw [hvol, hcc, hBvol, hc] at hv2
        simp [colVals, hempty] at hv2
      · intro h0
        rw [hvol, hcc, hBvol]

theorem C3_witness :
    1 - 3/2 * (103/4 - 1) ≤ (503/8 : ℚ) ∧ (503/8 : ℚ) ≤ 103/4 + 3/2 * (103/4 - 1) :=
  ((C3_outlier_clip_bound sampleFrame (by with_unfolding_all decide)
      (by decide)).1
    ⟨[some 1, some 1, some 1, some 1, some 1, some 1, some 100, some 100], true⟩
    1 (103/4)
    (by with_unfolding_all decide) (by with_unfolding_all decide)
    (by with_unfolding_all decide)).1
    (by norm_num) (503/8) (by with_unfolding_all decide)

/-! ## Claim C2 -/

/-- C2: on a non-empty series with a close column and no pre-existing
indicator columns, `transform_data` adds SMA_50/EMA_50 exactly when the
series has at least 50 rows, the four Bollinger columns and Volatility_20D
exactly at 20 rows, RSI exactly at 14 rows; Daily_Return is always added and
Close_Open_Diff exactly when an `open` column exists. -/
theorem C2_indicator_gating (sqrt : ℚ → ℚ) (df : DataFrame)
    (hne : df.empty = false) (hc : df.close.isSome)
    (h0 : df.SMA_50 = none ∧ df.EMA_50 = none ∧ df.BB_Middle = none ∧
      df.BB_StdDev = none ∧ df.BB_Upper = none ∧ df.BB_Lower = none ∧
      df.RSI = none ∧ df.Volatility_20D = none ∧ df.Close_Open_Diff = none) :
    ((transform_data sqrt df).SMA_50.isSome ↔ 50 ≤ df.dates.length) ∧
    ((transform_data sqrt df).EMA_50.isSome ↔ 50 ≤ df.dates.length) ∧
    ((transform_data sqrt df).BB_Middle.isSome ↔ 20 ≤ df.dates.length) ∧
    ((transform_data sqrt df).BB_StdDev.isSome ↔ 20 ≤ df.dates.length) ∧
    ((transform_data sqrt df).BB_Upper.isSome ↔ 20 ≤ df.dates.length) ∧
    ((transform_data sqrt df).BB_Lower.isSome ↔ 20 ≤ df.dates.length) ∧
    ((transform_data sqrt df).RSI.isSome ↔ 14 ≤ df.dates.length) ∧
    ((transform_data sqrt df).Volatility_20D.isSome ↔ 20 ≤ df.dates.length) ∧
    (transform_data sqrt df).Daily_Return.isSome ∧
    ((transform_data sqrt df).Close_Open_Diff.isSome ↔ df.«open».isSome) := by
  obtain ⟨c, hcc⟩ := Option.isSome_iff_exists.1 hc
  obtain ⟨e1, e2, e3, e4, e5, e6, e7, e8, e9⟩ := h0
  rcases ho : df.«open» with _ | o <;>
    by_cases h10 : 10 ≤ df.dates.length <;>
    by_cases h50 : 50 ≤ df.dates.length <;>
    by_cases h20 : 20 ≤ df.dates.length <;>
    by_cases h14 : 14 ≤ df.dates.length <;>
    simp [transform_data, hne, hcc, ho, h10, h50, h20, h14,
      e1, e2, e3, e4, e5, e6, e7, e8, e9]

theorem C2_witness :
    (transform_data id (rampFrame 50)).SMA_50.isSome ↔
      50 ≤ (rampFrame 50).dates.length :=
  (C2_indicator_gating id (rampFrame 50) (by decide) (by decide)
    (by decide)).1

/-! ## Claims C5 and C6 -/

theorem isSome_of_not_isNone {α : Type} {o : Option α} (h : ¬ (o.isNone = true)) :
    o.isSome = true := by
  cases o <;> simp_all

theorem not_bnot {b : Bool} (h : ¬ ((!b) = true)) : b = true := by
  cases b <;> simp_all

theorem numeric_of_check {oc : Option Column} (h : ¬ ((!numericIfPresent oc) = true)) :
    ∀ c, oc = some c → c.numeric = true := by
  intro c hc
  subst hc
  simpa [numericIfPresent] using not_bnot h

theorem allPos_spec {oc : Option Column} (h : ¬ ((!allPos oc) = true)) :
    ∀ c, oc = some c → ∀ x ∈ c.vals, ∃ v, x = some v ∧ 0 < v := by
  intro c hc x hx
  subst hc
  have h2 := not_bnot h
  simp only [allPos, List.all_eq_true] at h2
  have := h2 x hx
  cases x with
  | none => simp at this
  | some v => exact ⟨v, rfl, by simpa using this⟩

theorem nanFrac_of_check {n : Nat} {oc : Option Column}
    (h : ¬ ((!nanFracOK n oc) = true)) :
    ∀ c, oc = some c → ((c.vals.countP Option.isNone : Nat) : ℚ) / (n : ℚ) < 1/10 := by
  intro c hc
  subst hc
  have h2 := not_bnot h
  simpa [nanFracOK] using h2

/-- C5: whenever `validate_pipeline` returns true, the series is non-empty,
all six essential columns are present, the five price/volume columns are
numeric-typed, the index is date-typed, every close cell is a strictly
positive value, and the NaN fraction of close and volume is each below
10%. -/
theorem ite_error_ok {c : Prop} [Decidable c] {e : String}
    {rest : Except String Unit}
    (h : (if c then Except.error e else rest) = .ok ()) :
    ¬ c ∧ rest = .ok () := by
  by_cases hc : c
  · rw [if_pos hc] at h
    exact absurd h (by simp)
  · rw [if_neg hc] at h
    exact ⟨hc, h⟩

theorem C5_validation_postcondition (df : DataFrame)
    (h : validate_pipeline df = true) :
    df.empty = false ∧
    df.«open».isSome = true ∧ df.high.isSome = true ∧ df.low.isSome = true ∧
    df.close.isSome = true ∧ df.volume.isSome = true ∧ df.ticker.isSome = true ∧
    (∀ c, df.«open» = some c → c.numeric = true) ∧
    (∀ c, df.high = some c → c.numeric = true) ∧
    (∀ c, df.low = some c → c.numeric = true) ∧
    (∀ c, df.close = some c → c.numeric = true) ∧
    (∀ c, df.volume = some c → c.numeric = true) ∧
    df.datetimeIndex = true ∧
    (∀ c, df.close = some c → ∀ x ∈ c.vals, ∃ v, x = some v ∧ 0 < v) ∧
    (∀ c, df.close = some c →
      ((c.vals.countP Option.isNone : Nat) : ℚ) / (df.dates.length : ℚ) < 1/10) ∧
    (∀ c, df.volume = some c →
      ((c.vals.countP Option.isNone : Nat) : ℚ) / (df.dates.length : ℚ) < 1/10) := by
  unfold validate_pipeline at h
  cases hvc : validateChecks df with
  | error e =>
    rw [hvc] at h
    simp at h
  | ok u =>
  cases u
  unfold validateChecks at hvc
  obtain ⟨hb1, hvc⟩ := ite_error_ok hvc
  obtain ⟨hb2, hvc⟩ := ite_error_ok hvc
  obtain ⟨hb3, hvc⟩ := ite_error_ok hvc
  obtain ⟨hb4, hvc⟩ := ite_error_ok hvc
  obtain ⟨hb5, hvc⟩ := ite_error_ok hvc
  obtain ⟨hb6, hvc⟩ := ite_error_ok hvc
  obtain ⟨hb7, hvc⟩ := ite_error_ok hvc
  obtain ⟨hb8, hvc⟩ := ite_error_ok hvc
  obtain ⟨hb9, hvc⟩ := ite_error_ok hvc
  obtain ⟨hb10, hvc⟩ := ite_error_ok hvc
  obtain ⟨hb11, hvc⟩ := ite_error_ok hvc
  obtain ⟨hb12, hvc⟩ := ite_error_ok hvc
  obtain ⟨hb13, hvc⟩ := ite_error_ok hvc
  obtain ⟨hb14, hvc⟩ := ite_error_ok hvc
  obtain ⟨hb15, hvc⟩ := ite_error_ok hvc
  obtain ⟨hb16, hvc⟩ := ite_error_ok hvc
  exact ⟨by simpa using hb1, isSome_of_not_isNone hb2, isSome_of_not_isNone hb3,
    isSome_of_not_isNone hb4, isSome_of_not_isNone hb5, isSome_of_not_isNone hb6,
    isSome_of_not_isNone hb7, numeric_of_check hb8, numeric_of_check hb9,
    numeric_of_check hb10, numeric_of_check hb11, numeric_of_check hb12,
    not_bnot hb13, allPos_spec hb14, nanFrac_of_check hb15, nanFrac_of_check hb16⟩

theorem C5_witness : (rampFrame 5).empty = false :=
  (C5_validation_postcondition (rampFrame 5) (by with_unfolding_all decide)).1

/-- C6: `validate_pipeline` always returns a boolean (the embedding is a
total, pure function of the frame — nothing is mutated and nothing
escapes); it returns true exactly when the assert chain finishes, and any
raised check error is caught and yields false. -/
theorem C6_validator_error_signaling (df : DataFrame) :
    (validate_pipeline df = true ∨ validate_pipeline df = false) ∧
    (validate_pipeline df = true ↔ validateChecks df = Except.ok ()) ∧
    (∀ e, validateChecks df = Except.error e → validate_pipeline df = false) := by
  refine ⟨?_, ?_, ?_⟩
  · cases h : validate_pipeline df
    · exact Or.inr rfl
    · exact Or.inl rfl
  · unfold validate_pipeline
    cases h : validateChecks df with
    | ok u => cases u; simp
    | error e => simp
  · intro e he
    unfold validate_pipeline
    rw [he]

theorem C6_witness : validate_pipeline emptyFrame = false :=
  (C6_validator_error_signaling emptyFrame).2.2
    "Validation Error: DataFrame is empty after processing." rfl

/-! ## Claim C7 -/

/-- A structurally bad download (no rows, or a required column missing after
normalization) makes the attempt body return the empty frame. -/
theorem ingestBody_rejects {t : String} {raw : RawFrame}
    (h : raw.dates.isEmpty = true ∨
      required_ohlcv_cols.any (fun c => (findCol raw.normalize c).isNone) = true) :
    ingestBody t raw = emptyFrame := by
  unfold ingestBody
  rcases h with h | h
  · rw [if_pos h]
  · by_cases hd : raw.dates.isEmpty = true
    · rw [if_pos hd]
    · rw [if_neg hd, if_pos h]

/-- The retry loop: `k` raised attempts followed by a structurally rejected
response return the empty frame after exactly `k + 1` provider calls — the
structural rejection consumes no further retry. -/
theorem ingestLoop_reject (t : String) (provider : Nat → Except String RawFrame)
    (raw : RawFrame)
    (hbad : raw.dates.isEmpty = true ∨
      required_ohlcv_cols.any (fun c => (findCol raw.normalize c).isNone) = true) :
    ∀ (k fuel attempt : Nat), k < fuel →
      (∀ j, j < k → ∃ e, provider (attempt + j) = .error e) →
      provider (attempt + k) = .ok raw →
      ingestLoop t provider attempt fuel = (emptyFrame, 1 + k) := by
  intro k
  induction k with
  | zero =>
    intro fuel attempt hk herr hok
    obtain ⟨f, rfl⟩ : ∃ f, fuel = f + 1 :=
      ⟨fuel - 1, by omega⟩
    rw [Nat.add_zero] at hok
    unfold ingestLoop
    rw [hok]
    show (ingestBody t raw, 1) = (emptyFrame, 1 + 0)
    rw [ingestBody_rejects hbad]
  | succ k ih =>
    intro fuel attempt hk herr hok
    obtain ⟨f, rfl⟩ : ∃ f, fuel = f + 1 := ⟨fuel - 1, by omega⟩
    obtain ⟨e, he⟩ := herr 0 (Nat.succ_pos k)
    rw [Nat.add_zero] at he
    unfold ingestLoop
    rw [he]
    have hf : ¬ (f = 0) := by omega
    show (if f = 0 then (emptyFrame, 1)
      else
        ((ingestLoop t provider (attempt + 1) f).1,
         (ingestLoop t provider (attempt + 1) f).2 + 1)) = (emptyFrame, 1 + (k + 1))
    rw [if_neg hf]
    have := ih f (attempt + 1) (by omega)
      (fun j hj => by
        have := herr (j + 1) (by omega)
        rwa [show attempt + (j + 1) = attempt + 1 + j by omega] at this)
      (by rwa [show attempt + 1 + k = attempt + (k + 1) by omega])
    rw [this]
    simp [Nat.add_assoc]

/-- C7: whenever the provider's response (after any number of raised
attempts) has zero rows or lacks one of the five required columns after
normalization, `ingest_data` returns the empty frame immediately: exactly
the provider calls made so far, with no retry after the structural
rejection. -/
theorem C7_ingest_structural_reject (t : String)
    (provider : Nat → Except String RawFrame) (retry_count k : Nat)
    (raw : RawFrame) (hk : k < retry_count)
    (herr : ∀ j, j < k → ∃ e, provider j = .error e)
    (hok : provider k = .ok raw)
    (hbad : raw.dates.isEmpty = true ∨
      required_ohlcv_cols.any (fun c => (findCol raw.normalize c).isNone) = true) :
    ingest_data t provider retry_count = (emptyFrame, 1 + k) := by
  unfold ingest_data
  exact ingestLoop_reject t provider raw hbad k retry_count 0 hk
    (fun j hj => by simpa using herr j hj) (by simpa using hok)

theorem C7_witness : ingest_data "AAPL" emptyRawProvider 3 = (emptyFrame, 1) :=
  C7_ingest_structural_reject "AAPL" emptyRawProvider 3 0 ⟨[], []⟩ (by decide)
    (fun j hj => absurd hj (Nat.not_lt_zero j)) rfl (Or.inl rfl)

/-! ## Claim C9 -/

/-- C9: on a non-empty frame (with no year/month columns yet, as the
pipeline always passes), `store_data` mutates the caller's frame in place
before writing: afterwards the caller's frame carries the `year` and `month`
columns derived from the date index, differs from the input in exactly those
two fields, and is the very frame appended to the sink. -/
theorem C9_store_mutates_caller (df : DataFrame) (log : List (String × DataFrame))
    (table : String) (hne : df.empty = false)
    (hy : df.yearCol = none) (hm : df.monthCol = none) :
    (store_data df log table).1.yearCol = some (df.dates.map Date.year) ∧
    (store_data df log table).1.monthCol = some (df.dates.map Date.month) ∧
    { (store_data df log table).1 with yearCol := none, monthCol := none } = df ∧
    (store_data df log table).2 = log ++ [(table, (store_data df log table).1)] := by
  have hcond : ¬ (df.empty = true) := by rw [hne]; exact Bool.false_ne_true
  unfold store_data
  rw [if_neg hcond]
  refine ⟨rfl, rfl, ?_, rfl⟩
  ext1 <;> simp [hy, hm]

theorem C9_witness :
    (store_data sampleFrame [] "ohlc_processed_data").1.yearCol =
      some (sampleFrame.dates.map Date.year) :=
  (C9_store_mutates_caller sampleFrame [] "ohlc_processed_data" (by decide)
    rfl rfl).1

/-! ## Claim C10 -/

/-- C10: `retrieve_data` adds a WHERE condition only for truthy filter
values — an empty-string ticker, year 0 or month 0 behave exactly like an
omitted filter — while non-empty/non-zero filters are exact-match
AND-combined. -/
theorem C10_retrieve_truthiness (table : List StoredRow) :
    (∀ yr mo, retrieve_data table (some "") yr mo = retrieve_data table none yr mo) ∧
    (∀ tk mo, retrieve_data table tk (some 0) mo = retrieve_data table tk none mo) ∧
    (∀ tk yr, retrieve_data table tk yr (some 0) = retrieve_data table tk yr none) ∧
    (∀ t y m, t ≠ "" → y ≠ 0 → m ≠ 0 →
      retrieve_data table (some t) (some y) (some m) =
        (table.filter
          (fun r => r.ticker == t && r.year == y && r.month == m)).insertionSort
          (fun a b => Date.le a.date b.date = true)) := by
  refine ⟨fun yr mo => ?_, fun tk mo => ?_, fun tk yr => ?_,
    fun t y m ht hy hm => ?_⟩
  · simp [retrieve_data]
  · simp [retrieve_data]
  · simp [retrieve_data]
  · simp only [retrieve_data, if_pos ht, if_pos hy, if_pos hm]
    congr 1
    apply List.filter_congr
    intro r hr
    simp [evalCond, Bool.and_assoc]

theorem C10_witness :
    retrieve_data sampleTable (some "AAPL") (some 2020) (some 1) =
      (sampleTable.filter
        (fun r => r.ticker == "AAPL" && r.year == 2020 && r.month == 1)).insertionSort
        (fun a b => Date.le a.date b.date = true) :=
  (C10_retrieve_truthiness sampleTable).2.2.2 "AAPL" 2020 1 (by decide)
    (by decide) (by decide)

/-! ## Claim C8 -/

theorem sortStep_ticker (df : DataFrame) : (sortStep df).ticker = df.ticker := rfl

theorem dropStep_ticker (df : DataFrame) : (dropStep df).ticker = df.ticker := rfl

theorem fillStep_ticker (df : DataFrame) : (fillStep df).ticker = df.ticker := rfl

theorem clipStep_ticker (df : DataFrame) : (clipStep df).ticker = df.ticker := by
  unfold clipStep
  rw [(clipVolume_fields _).2.2.2.2.2.2, (clipClose_fields _).2.2.2.2.2.2]

theorem clean_data_ticker (df : DataFrame) : (clean_data df).ticker = df.ticker := by
  unfold clean_data
  split_ifs with h
  · rfl
  · rw [sortStep_ticker, clipStep_ticker, dropStep_ticker, fillStep_ticker]

theorem transform_data_ticker (sqrt : ℚ → ℚ) (df : DataFrame) :
    (transform_data sqrt df).ticker = df.ticker := by
  by_cases hemp : df.empty = true
  · simp [transform_data, hemp]
  · rcases hc : df.close with _ | c
    · simp [transform_data, hemp, hc]
    · rcases ho : df.«open» with _ | o <;>
        by_cases h10 : 10 ≤ df.dates.length <;>
        by_cases h50 : 50 ≤ df.dates.length <;>
        by_cases h20 : 20 ≤ df.dates.length <;>
        by_cases h14 : 14 ≤ df.dates.length <;>
        simp [transform_data, hemp, hc, ho, h10, h50, h20, h14]

theorem ingestBody_ticker {t : String} {raw : RawFrame}
    (h : (ingestBody t raw).empty = false) : (ingestBody t raw).ticker = some t := by
  unfold ingestBody at h ⊢
  by_cases hd : raw.dates.isEmpty = true
  · rw [if_pos hd] at h
    exact absurd h (by simp [emptyFrame, DataFrame.empty])
  · rw [if_neg hd] at h ⊢
    by_cases hm : (required_ohlcv_cols.any
        (fun c => (findCol raw.normalize c).isNone)) = true
    · rw [if_pos hm] at h
      exact absurd h (by simp [emptyFrame, DataFrame.empty])
    · rw [if_neg hm]

theorem ingestLoop_ticker (t : String) (provider : Nat → Except String RawFrame) :
    ∀ (fuel attempt : Nat),
      (ingestLoop t provider attempt fuel).1.empty = false →
      (ingestLoop t provider attempt fuel).1.ticker = some t := by
  intro fuel
  induction fuel with
  | zero =>
    intro attempt h
    exact absurd h (by simp [ingestLoop, emptyFrame, DataFrame.empty])
  | succ f ih =>
    intro attempt h
    cases hp : provider attempt with
    | ok raw =>
      unfold ingestLoop at h ⊢
      rw [hp] at h ⊢
      exact ingestBody_ticker h
    | error e =>
      unfold ingestLoop at h ⊢
      rw [hp] at h ⊢
      dsimp only at h ⊢
      by_cases hf : f = 0
      · rw [if_pos hf] at h
        exact absurd h (by simp [emptyFrame, DataFrame.empty])
      · rw [if_neg hf] at h ⊢
        exact ih (attempt + 1) h

theorem ingest_data_ticker {t : String} {provider : Nat → Except String RawFrame}
    {retry : Nat} (h : (ingest_data t provider retry).1.empty = false) :
    (ingest_data t provider retry).1.ticker = some t :=
  ingestLoop_ticker t provider retry 0 h

/-- A ticker failing at any stage is skipped: no success mark, no write. -/
theorem processTicker_failed {provider : String → Nat → Except String RawFrame}
    {sqrt : ℚ → ℚ} {t : String}
    (hfail : (ingest_data t (provider t)).1.empty = true ∨
      (clean_data (ingest_data t (provider t)).1).empty = true ∨
      (transform_data sqrt (clean_data (ingest_data t (provider t)).1)).empty = true ∨
      validate_pipeline
        (transform_data sqrt (clean_data (ingest_data t (provider t)).1)) = false)
    (log : List (String × DataFrame)) :
    processTicker provider sqrt log t = (false, log) := by
  simp only [processTicker]
  by_cases h1 : (ingest_data t (provider t)).1.empty = true
  · rw [if_pos h1]
  · rw [if_neg h1]
    by_cases h2 : (clean_data (ingest_data t (provider t)).1).empty = true
    · rw [if_pos h2]
    · rw [if_neg h2]
      by_cases h3 : (transform_data sqrt
          (clean_data (ingest_data t (provider t)).1)).empty = true
      · rw [if_pos h3]
      · rw [if_neg h3]
        have h4 : validate_pipeline (transform_data sqrt
            (clean_data (ingest_data t (provider t)).1)) = false := by
          rcases hfail with h | h | h | h
          · exact absurd h h1
          · exact absurd h h2
          · exact absurd h h3
          · exact h
        rw [if_pos (by rw [h4]; rfl)]

/-- A non-empty frame is appended as-is (with its year/month stamp), and the
stamped frame keeps the ticker column. -/
theorem store_data_log (df : DataFrame) (log : List (String × DataFrame))
    (table : String) (hne : df.empty = false) :
    (store_data df log table).2 = log ++ [(table, (store_data df log table).1)] ∧
    (store_data df log table).1.ticker = df.ticker := by
  unfold store_data
  rw [if_neg (by rw [hne]; exact Bool.false_ne_true)]
  exact ⟨rfl, rfl⟩

/-- Any write performed while processing ticker `u` is a frame stamped with
ticker `u`. -/
theorem processTicker_log (provider : String → Nat → Except String RawFrame)
    (sqrt : ℚ → ℚ) (log : List (String × DataFrame)) (u : String) :
    (processTicker provider sqrt log u).2 = log ∨
    ∃ fr, (processTicker provider sqrt log u).2 =
        log ++ [("ohlc_processed_data", fr)] ∧ fr.ticker = some u := by
  simp only [processTicker]
  by_cases h1 : (ingest_data u (provider u)).1.empty = true
  · rw [if_pos h1]
    exact Or.inl rfl
  · rw [if_neg h1]
    by_cases h2 : (clean_data (ingest_data u (provider u)).1).empty = true
    · rw [if_pos h2]
      exact Or.inl rfl
    · rw [if_neg h2]
      by_cases h3 : (transform_data sqrt
          (clean_data (ingest_data u (provider u)).1)).empty = true
      · rw [if_pos h3]
        exact Or.inl rfl
      · rw [if_neg h3]
        by_cases h4 : validate_pipeline (transform_data sqrt
            (clean_data (ingest_data u (provider u)).1)) = true
        · rw [if_neg (by rw [h4]; simp)]
          right
          obtain ⟨hlog, htick⟩ := store_data_log
            (transform_data sqrt (clean_data (ingest_data u (provider u)).1))
            log "ohlc_processed_data" (Bool.eq_false_iff.2 h3)
          refine ⟨(store_data (transform_data sqrt
            (clean_data (ingest_data u (provider u)).1)) log
            "ohlc_processed_data").1, hlog, ?_⟩
          rw [htick, transform_data_ticker, clean_data_ticker]
          exact ingest_data_ticker (Bool.eq_false_iff.2 h1)
        · rw [if_pos (by simpa using h4)]
          exact Or.inl rfl

/-- C8: in every run, a ticker whose chain returns an empty frame at any
stage or fails validation is never marked successful and never reaches the
store — no row tagged with that ticker is written; the fold never
propagates an error (each step is a total function of the accumulator). -/
theorem C8_orchestrator_isolation (provider : String → Nat → Except String RawFrame)
    (sqrt : ℚ → ℚ) (tickers : List String) (t : String)
    (hfail : (ingest_data t (provider t)).1.empty = true ∨
      (clean_data (ingest_data t (provider t)).1).empty = true ∨
      (transform_data sqrt (clean_data (ingest_data t (provider t)).1)).empty = true ∨
      validate_pipeline
        (transform_data sqrt (clean_data (ingest_data t (provider t)).1)) = false) :
    t ∉ (run_data_pipeline provider sqrt tickers).successful_tickers ∧
    ∀ p ∈ (run_data_pipeline provider sqrt tickers).storeLog,
      p.2.ticker ≠ some t := by
  suffices H : ∀ (ts : List String) (acc : RunResult),
      t ∉ acc.successful_tickers →
      (∀ p ∈ acc.storeLog, p.2.ticker ≠ some t) →
      t ∉ (ts.foldl (runStep provider sqrt) acc).successful_tickers ∧
      ∀ p ∈ (ts.foldl (runStep provider sqrt) acc).storeLog,
        p.2.ticker ≠ some t by
    exact H tickers ⟨[], []⟩ (by simp) (by simp)
  intro ts
  induction ts with
  | nil =>
    intro acc h1 h2
    exact ⟨h1, h2⟩
  | cons u rest ih =>
    intro acc h1 h2
    rw [List.foldl_cons]
    by_cases hu : u = t
    · subst hu
      have hstep : runStep provider sqrt acc u = acc := by
        simp [runStep, processTicker_failed hfail]
      rw [hstep]
      exact ih acc h1 h2
    · apply ih
      · simp only [runStep]
        rcases hsucc : (processTicker provider sqrt acc.storeLog u).1
        · simpa using h1
        · simp only [if_pos rfl]
          intro hmem
          rcases List.mem_append.1 hmem with hmem | hmem
          · exact h1 hmem
          · simp at hmem
            exact hu hmem.symm
      · rcases processTicker_log provider sqrt acc.storeLog u with h | ⟨fr, heq, hfr⟩
        · simp only [runStep, h]
          exact h2
        · simp only [runStep, heq]
          intro p hp
          rcases List.mem_append.1 hp with hp | hp
          · exact h2 p hp
          · simp at hp
            subst hp
            show fr.ticker ≠ some t
            rw [hfr]
            intro hcontra
            exact hu (by injection hcontra)

theorem C8_witness :
    "AAPL" ∉ (run_data_pipeline allEmptyProvider id ["AAPL"]).successful_tickers :=
  (C8_orchestrator_isolation allEmptyProvider id ["AAPL"] "AAPL" (Or.inl rfl)).1

/-! ## Claim C4 -/

theorem diff_length (xs : List (Option ℚ)) : (diff xs).length = xs.length := by
  simp [diff]

theorem whereGT0_length (xs : List (Option ℚ)) : (whereGT0 xs).length = xs.length := by
  simp [whereGT0]

theorem negWhereLT0_length (xs : List (Option ℚ)) :
    (negWhereLT0 xs).length = xs.length := by
  simp [negWhereLT0]

theorem rollingMean_length (w : Nat) (xs : List (Option ℚ)) :
    (rollingMean w xs).length = xs.length := by
  simp [rollingMean]

theorem maskZero_length (xs : List (Option ℚ)) : (maskZero xs).length = xs.length := by
  simp [maskZero]

/-- The `delta.where(delta > 0, 0)` series over an all-valid close column is
the series of positive parts of the one-step deltas, with `0` in the
day-0 slot (its delta is NaN, and a NaN comparison is `False`). -/
theorem whereGT0_diff_eq (closes : List ℚ) :
    whereGT0 (diff (closes.map some)) = (List.range closes.length).map
      (fun j => some (if j = 0 then 0 else max (specDelta closes j) 0)) := by
  unfold whereGT0 diff
  rw [List.length_map, List.map_map]
  apply List.map_congr_left
  intro j hj
  rw [List.mem_range] at hj
  cases j with
  | zero => rfl
  | succ k =>
    simp only [Function.comp]
    rw [getD_map_lt some closes none hj,
      getD_map_lt some closes none (by omega : k < closes.length)]
    simp only [osub]
    have hd : specDelta closes (k + 1) = closes[k + 1] - closes[k] := by
      unfold specDelta
      rw [List.getD_eq_getElem _ _ hj,
        List.getD_eq_getElem _ _ (by omega : k + 1 - 1 < closes.length)]
      simp
    rw [if_neg (Nat.succ_ne_zero k), hd]
    split_ifs with h
    · rw [max_eq_left (le_of_lt h)]
    · rw [max_eq_right (le_of_not_lt h)]

/-- Likewise `-delta.where(delta < 0, 0)` is the series of positive parts of
the negated deltas. -/
theorem negWhereLT0_diff_eq (closes : List ℚ) :
    negWhereLT0 (diff (closes.map some)) = (List.range closes.length).map
      (fun j => some (if j = 0 then 0 else max (-(specDelta closes j)) 0)) := by
  unfold negWhereLT0 diff
  rw [List.length_map, List.map_map]
  apply List.map_congr_left
  intro j hj
  rw [List.mem_range] at hj
  cases j with
  | zero => rfl
  | succ k =>
    simp only [Function.comp]
    rw [getD_map_lt some closes none hj,
      getD_map_lt some closes none (by omega : k < closes.length)]
    simp only [osub]
    have hd : specDelta closes (k + 1) = closes[k + 1] - closes[k] := by
      unfold specDelta
      rw [List.getD_eq_getElem _ _ hj,
        List.getD_eq_getElem _ _ (by omega : k + 1 - 1 < closes.length)]
      simp
    rw [if_neg (Nat.succ_ne_zero k), hd]
    split_ifs with h
    · rw [max_eq_left (by linarith)]
    · rw [max_eq_right (by linarith)]

/-- The rolling window over such a series selects the indices
`max 0 (i+1-14) .. i`. -/
theorem window_of_map_range {F : Nat → ℚ} {n i : Nat} (hi : i < n) :
    window 14 i ((List.range n).map (fun j => some (F j))) =
      ((List.range (i + 1)).drop (i + 1 - 14)).map F := by
  unfold window
  rw [← List.map_take, List.take_range, Nat.min_eq_left (by omega), ← List.map_drop,
    List.filterMap_map]
  exact congrFun (List.filterMap_eq_map F) _

/-- Summing an `if j = 0 then 0 else F j` map equals summing `F` over the
non-zero indices. -/
theorem sum_map_ifzero (F : Nat → ℚ) (js : List Nat) :
    (js.map (fun j => if j = 0 then 0 else F j)).sum =
      ((js.filter (fun j => j ≠ 0)).map F).sum := by
  induction js with
  | nil => rfl
  | cons j tl ih =>
    by_cases hj : j = 0
    · subst hj
      simp [ih]
    · simp [hj, ih]

/-- The RSI block of `transform_data`, in closed form: NaN exactly where the
rolling loss is zero, `100 - 100/(1 + gain/loss)` elsewhere — with gain and
loss read per the spec as rolling means of the positive/negated-negative
one-step deltas over the partial 14-window. -/
theorem rsi_core (closes : List ℚ) :
    ((List.zipWith odiv (rollingMean 14 (whereGT0 (diff (closes.map some))))
        (maskZero (rollingMean 14 (negWhereLT0 (diff (closes.map some)))))).map
      (Option.map fun r => 100 - 100 / (1 + r))) =
      (List.range closes.length).map (fun i => specRSI closes i) := by
  rw [whereGT0_diff_eq, negWhereLT0_diff_eq]
  apply List.ext_getElem
  · simp [rollingMean_length, maskZero_length]
  · intro i h1 h2
    have hi : i < closes.length := by simpa using h2
    simp only [rollingMean, maskZero, List.getElem_map, List.getElem_zipWith,
      List.getElem_range, List.length_map, List.length_range]
    rw [window_of_map_range hi, window_of_map_range hi]
    have hpos : ((List.range (i + 1)).drop (i + 1 - 14)).length ≠ 0 := by
      simp only [List.length_drop, List.length_range]
      omega
    rw [if_neg (by simpa using hpos), if_neg (by simpa using hpos)]
    rw [sum_map_ifzero, sum_map_ifzero]
    have hwin : ((List.range (i + 1)).drop (i + 1 - 14)).filter (fun j => j ≠ 0) =
        specWindowIdx i := rfl
    rw [hwin]
    simp only [List.length_map]
    unfold specRSI specGainAt specLossAt
    by_cases hzero :
        ((specWindowIdx i).map (fun j => max (-(specDelta closes j)) 0)).sum = 0
    · rw [hzero]
      simp [odiv]
    · have hm : (specWindowIdx i).length ≠ 0 := by
        intro hcon
        apply hzero
        rw [List.length_eq_zero.1 hcon]
        rfl
      have hmq : ((specWindowIdx i).length : ℚ) ≠ 0 := Nat.cast_ne_zero.2 hm
      have hn0q : ((((List.range (i + 1)).drop (i + 1 - 14)).length : Nat) : ℚ) ≠ 0 :=
        Nat.cast_ne_zero.2 hpos
      rw [if_neg (div_ne_zero hzero hn0q), if_neg (div_ne_zero hzero hmq)]
      simp only [odiv, Option.map]
      have hr : ∀ c : ℚ, c ≠ 0 →
          (((specWindowIdx i).map (fun j => max (specDelta closes j) 0)).sum / c) /
            (((specWindowIdx i).map (fun j => max (-(specDelta closes j)) 0)).sum / c) =
          ((specWindowIdx i).map (fun j => max (specDelta closes j) 0)).sum /
            ((specWindowIdx i).map (fun j => max (-(specDelta closes j)) 0)).sum := by
        intro c hc
        field_simp
      rw [hr _ hn0q, hr _ hmq]

/-- C4: for a series of at least 14 rows whose close column holds the values
`closes`, `transform_data` computes RSI at each observation as
`100 - 100/(1 + gain/loss)` — `gain`/`loss` being the 14-period rolling
means (partial windows allowed) of the positive / negated negative one-step
close deltas — and RSI is not-a-number exactly where the loss is zero. -/
theorem C4_rsi_definition (sqrt : ℚ → ℚ) (df : DataFrame) (closes : List ℚ)
    (b : Bool) (hc : df.close = some ⟨closes.map some, b⟩)
    (hL : 14 ≤ df.dates.length) :
    (transform_data sqrt df).RSI =
      some ((List.range closes.length).map (fun i => specRSI closes i)) := by
  have hemp : ¬ (df.empty = true) := by
    rw [DataFrame.empty]
    cases hd : df.dates with
    | nil => rw [hd] at hL; simp at hL
    | cons a l => simp
  rcases ho : df.«open» with _ | o <;>
    by_cases h10 : 10 ≤ df.dates.length <;>
    by_cases h50 : 50 ≤ df.dates.length <;>
    by_cases h20 : 20 ≤ df.dates.length <;>
    simp [transform_data, hemp, hc, ho, h10, h50, h20, hL, rsi_core]

theorem C4_witness :
    (transform_data id (rampFrame 14)).RSI =
      some ((List.range (rampCloses 14).length).map
        (fun i => specRSI (rampCloses 14) i)) :=
  C4_rsi_definition id (rampFrame 14) (rampCloses 14) true rfl (by decide)

end OHLC
